import Mathlib

/-!
Shallow embedding of the scheduling and delivery-state engine of the
`learn_en_bot` repository (files `app/models.py`, `app/db.py`,
`app/services/assignments.py`, `app/scheduler.py`), together with proofs
of the specified properties.

Conventions of the embedding:
* calendar dates (`date.today()`) are day ordinals (`Nat`);
* timestamps and local clock readings are seconds (`Int`);
* the database is explicit state (`Database`) threaded through every
  operation, one Lean function per `Database` method;
* outcomes of the external collaborators (the Telegram transport, the
  TTS service) are explicit parameters of the scheduler functions, one
  `DeliveryOutcome` per delivery attempt, matching §6 of the design
  (collaborators are consumed as interfaces that report success/failure);
* `try/except` around an external call becomes a branch on the recorded
  outcome; an exception that no handler catches becomes `Except.error`.
-/

namespace LearnEnBot

/-- Embeds `User` row (`app/models.py`), together with the `is_subscribed` and
`send_audio` columns that `Database.init_db` (`app/db.py`) adds to the
`users` table with default `TRUE`. -/
structure User where
  id : Nat
  chat_id : Nat
  username : Option String := none
  daily_hour : Option Nat := none
  daily_minute : Option Nat := none
  is_subscribed : Bool := true
  send_audio : Bool := true
  deriving Repr, DecidableEq

/-- Embeds `Assignment` row (`app/models.py`). `status` is `"assigned"` or
`"mastered"`; `delivered_at` is the nullable delivery timestamp. -/
structure Assignment where
  id : Nat
  user_id : Nat
  date_assigned : Nat
  phrasal_verb : String
  translation : String
  explanation : String
  examples_json : String
  status : String := "assigned"
  followup1_sent : Bool := false
  followup2_sent : Bool := false
  delivered_at : Option Int := none
  deriving Repr, DecidableEq

/-- The persistent store (`Database` in `app/db.py`): the two tables plus
the autoincrement counter of the `assignments` primary key. -/
structure Database where
  users : List User
  assignments : List Assignment
  nextAssignmentId : Nat
  deriving Repr, DecidableEq

namespace Database

/-- Embeds `Database.get_user_by_id` (`app/db.py`): `Session.get` by primary key. -/
def get_user_by_id (db : Database) (user_id : Nat) : Option User :=
  db.users.find? (fun u => u.id == user_id)

/-- Embeds `Database.get_assignment_by_id` (`app/db.py`). -/
def get_assignment_by_id (db : Database) (assignment_id : Nat) : Option Assignment :=
  db.assignments.find? (fun a => a.id == assignment_id)

/-- Embeds `Database.get_today_assignment` (`app/db.py`): first row with the
given `user_id` and `date_assigned = date.today()` (`today` is passed
explicitly in the embedding). -/
def get_today_assignment (db : Database) (user_id : Nat) (today : Nat) : Option Assignment :=
  db.assignments.find? (fun a => a.user_id == user_id && a.date_assigned == today)

/-- Embeds `Database.list_users` (`app/db.py`). -/
def list_users (db : Database) : List User :=
  db.users

/-- Embeds `Database.list_users_without_daily_time` (`app/db.py`): subscribed
users with `daily_hour` or `daily_minute` null. -/
def list_users_without_daily_time (db : Database) : List User :=
  db.users.filter (fun u =>
    (u.daily_hour.isNone || u.daily_minute.isNone) && u.is_subscribed)

/-- Embeds `Database.list_undelivered_assignments` (`app/db.py`):
rows with `delivered_at IS NULL`. -/
def list_undelivered_assignments (db : Database) : List Assignment :=
  db.assignments.filter (fun a => a.delivered_at.isNone)

/-- Replace the first element satisfying `p` by `f` of it; the ORM session
mutates exactly the row object returned by the corresponding `SELECT`. -/
def replaceFirst (p : Assignment → Bool) (f : Assignment → Assignment) :
    List Assignment → List Assignment
  | [] => []
  | a :: rest =>
      if p a then f a :: rest else a :: replaceFirst p f rest

/-- The in-place overwrite performed by the `force_new` branch of
`Database.ensure_today_assignment` (`app/db.py`): payload fields, status,
both follow-up flags and `delivered_at` are reset; `id`, `user_id` and
`date_assigned` are untouched. -/
def overwriteAssignment (verb translation explanation examples_json : String)
    (a : Assignment) : Assignment :=
  { a with
    phrasal_verb := verb
    translation := translation
    explanation := explanation
    examples_json := examples_json
    status := "assigned"
    followup1_sent := false
    followup2_sent := false
    delivered_at := none }

/-- Embeds `Database.ensure_today_assignment` (`app/db.py`): select today's row
for the user; if present and not `force_new`, return it unchanged; if
present and `force_new`, overwrite it in place; otherwise insert a fresh
row for today. Returns the row together with the new store state. -/
def ensure_today_assignment (db : Database) (user : User)
    (verb translation explanation examples_json : String)
    (force_new : Bool) (today : Nat) : Assignment × Database :=
  match db.get_today_assignment user.id today with
  | some assgn =>
      if force_new then
        let updated := overwriteAssignment verb translation explanation examples_json assgn
        let rows := replaceFirst (fun a => a.user_id == user.id && a.date_assigned == today) (overwriteAssignment verb translation explanation examples_json) db.assignments
        (updated, { db with assignments := rows })
      else
        (assgn, db)
  | none =>
      let assgn : Assignment :=
        { id := db.nextAssignmentId
          user_id := user.id
          date_assigned := today
          phrasal_verb := verb
          translation := translation
          explanation := explanation
          examples_json := examples_json
          status := "assigned"
          delivered_at := none }
      (assgn,
        { db with
            assignments := db.assignments ++ [assgn]
            nextAssignmentId := db.nextAssignmentId + 1 })

/-- Embeds `Database.create_today_assignment` (`app/db.py`): unconditional insert
of a fresh `assigned` row for today. -/
def create_today_assignment (db : Database) (user_id : Nat)
    (verb translation explanation examples_json : String) (today : Nat) :
    Assignment × Database :=
  let assgn : Assignment :=
    { id := db.nextAssignmentId
      user_id := user_id
      date_assigned := today
      phrasal_verb := verb
      translation := translation
      explanation := explanation
      examples_json := examples_json
      status := "assigned"
      delivered_at := none }
  (assgn,
    { db with
        assignments := db.assignments ++ [assgn]
        nextAssignmentId := db.nextAssignmentId + 1 })

/-- Apply `f` to the row with the given primary key.  `Session.get`
returns the unique row with that key (primary keys are unique; the
`WellFormed` predicate below captures this), so updating every matching
list entry coincides with updating that row. -/
def updateById (db : Database) (assignment_id : Nat) (f : Assignment → Assignment) : Database :=
  { db with assignments :=
      db.assignments.map (fun a => if a.id == assignment_id then f a else a) }

/-- Embeds `Database.mark_mastered` (`app/db.py`). -/
def mark_mastered (db : Database) (assignment_id : Nat) : Database :=
  db.updateById assignment_id (fun a => { a with status := "mastered" })

/-- Embeds `Database.mark_followup_sent` (`app/db.py`). -/
def mark_followup_sent (db : Database) (assignment_id : Nat) (which : Nat) : Database :=
  db.updateById assignment_id (fun a =>
    if which == 1 then { a with followup1_sent := true }
    else if which == 2 then { a with followup2_sent := true }
    else a)

/-- Embeds `Database.mark_assignment_delivered` (`app/db.py`): sets
`delivered_at` to the given timestamp (`datetime.utcnow()` at call time
when the caller passes nothing; the embedding passes the clock
explicitly). -/
def mark_assignment_delivered (db : Database) (assignment_id : Nat) (now : Int) : Database :=
  db.updateById assignment_id (fun a => { a with delivered_at := some now })

end Database

/-- No two rows of the list agree on the key `f`. -/
def allDistinctBy {κ : Type} [DecidableEq κ] (f : Assignment → κ) : List Assignment → Bool
  | [] => true
  | a :: rest => rest.all (fun b => decide (f b ≠ f a)) && allDistinctBy f rest

/-- The uniqueness invariant of §8 of the spec: at most one `Assignment`
per `(user_id, date_assigned)` pair. -/
def uniquePerUserDate (db : Database) : Bool :=
  allDistinctBy (fun a => (a.user_id, a.date_assigned)) db.assignments

/-- Structural well-formedness of the store: primary keys are distinct
and below the autoincrement counter (what the SQL `PRIMARY KEY
AUTOINCREMENT` guarantees). -/
def WellFormed (db : Database) : Bool :=
  allDistinctBy (fun a => a.id) db.assignments &&
    db.assignments.all (fun a => a.id < db.nextAssignmentId)

/-- The empty store. -/
def emptyDatabase (users : List User) : Database :=
  { users := users, assignments := [], nextAssignmentId := 1 }

/-! Section: Presentation layer (`app/markdown.py`, `app/messages.py`)

The spec scopes presentation formatting out (§1); the scheduler consumes
it only through `FormattedMessage` and through the emptiness test on the
`plain` rendition in `_send_voice_message`. -/

/-- Embeds `MARKDOWN_V2_SPECIAL_CHARS` (`app/markdown.py`). -/
def markdownV2SpecialChars : List Char :=
  ['_', '[', ']', '(', ')', '~', '`', '>', '#', '+', '-', '=', '|', '\x7b', '\x7d', '.', '!', '*', '<', '\\']

/-- Embeds `escape` (`app/markdown.py`): backslash-escape MarkdownV2 special
characters. -/
def escape (text : String) : String :=
  if text = "" then ""
  else String.join (text.toList.map (fun ch =>
    if markdownV2SpecialChars.contains ch then String.push "\\" ch else String.singleton ch))

/-- Embeds `bold` (`app/markdown.py`). -/
def bold (text : String) : String :=
  "*" ++ escape text ++ "*"

/-- Embeds `italic` (`app/markdown.py`). -/
def italic (text : String) : String :=
  "_" ++ escape text ++ "_"

/-- Embeds `FormattedMessage` (`app/messages.py`). -/
structure FormattedMessage where
  markdown : String
  plain : String
  deriving Repr, DecidableEq

/-- Python `str.strip()`: drop leading and trailing whitespace (written
over the character list so that concrete runs reduce in the kernel). -/
def pyStrip (s : String) : String :=
  String.mk (((s.toList.dropWhile Char.isWhitespace).reverse.dropWhile Char.isWhitespace).reverse)

/-- Split a character list at every character satisfying `p`, keeping
empty segments (the behaviour of Python `str.split(sep)`). -/
def splitOnPred (p : Char → Bool) (cs : List Char) : List (List Char) :=
  cs.foldr (fun c acc =>
    if p c then [] :: acc
    else match acc with
      | h :: t => (c :: h) :: t
      | [] => [[c]]) [[]]

/-- The explanation normalization of `_prepare_assignment_details`
(`app/messages.py`): strip, and if the text spans several lines join the
stripped non-empty lines with single spaces. -/
def normalizeExplanation (explanation : String) : String :=
  let v := pyStrip explanation
  if v.toList.contains '\n' then
    " ".intercalate ((((splitOnPred (fun c => c = '\n') v.toList).map (fun cs => pyStrip (String.mk cs)))).filter (fun part => part ≠ ""))
  else v

/-- Embeds `_prepare_assignment_details` (`app/messages.py`) returns the
normalized explanation and the first example extracted from
`examples_json`.  The JSON decoding of the examples payload is external
presentation detail (out of scope per §1 of the spec, and irrelevant to
every claim: only the always-present header line of the message matters
downstream); the embedding models the extraction as finding no example,
i.e. the `examples = []` branch of the source. -/
def prepareAssignmentDetails (explanation : String) (_examples_json : String) :
    String × String × Option String :=
  (normalizeExplanation explanation, "", none)

/-- Embeds `format_assignment_message` (`app/messages.py`): four
double-newline-separated parts, in both MarkdownV2 and plain renditions;
the first part is always the `Фразовый глагол дня` header. -/
def format_assignment_message (verb translation explanation examples_json : String) :
    FormattedMessage :=
  let details := prepareAssignmentDetails explanation examples_json
  let explanationValue := details.1
  let exampleText := details.2.1
  let headerMd := bold "Фразовый глагол дня" ++ ": " ++ escape verb ++ " — " ++ escape translation
  let headerPlain := "Фразовый глагол дня: " ++ verb ++ " — " ++ translation
  let mdParts :=
    if exampleText ≠ "" then
      [headerMd, italic explanationValue,
        bold "Пример" ++ ": " ++ escape exampleText,
        bold "Перевод" ++ ": " ++ escape (details.2.2.getD "Попробуй перевести это предложение самостоятельно."),
        escape "Напиши своё короткое предложение — я подскажу, всё ли верно."]
    else
      [headerMd, italic explanationValue,
        bold "Пример" ++ ": " ++ escape "Попробуй составить короткое предложение с этим глаголом.",
        bold "Перевод" ++ ": " ++ escape "Затем переведи его на русский язык самостоятельно.",
        escape "Напиши своё короткое предложение — я подскажу, всё ли верно."]
  let plainParts :=
    if exampleText ≠ "" then
      [headerPlain, explanationValue,
        "Пример: " ++ exampleText,
        "Перевод: " ++ details.2.2.getD "Попробуй перевести это предложение самостоятельно.",
        "Напиши своё короткое предложение — я подскажу, всё ли верно."]
    else
      [headerPlain, explanationValue,
        "Пример: Попробуй составить короткое предложение с этим глаголом.",
        "Перевод: Затем переведи его на русский язык самостоятельно.",
        "Напиши своё короткое предложение — я подскажу, всё ли верно."]
  { markdown := "\n\n".intercalate mdParts, plain := "\n\n".intercalate plainParts }

/-! Section: Assignment service (`app/services/assignments.py`) -/

/-- The payload the Content Provider returns
(`GeminiClient.generate_phrasal_verb`, `app/gemini.py`); by contract it
never raises — on any internal error it returns a fixed fallback — so
the embedding passes the payload as a plain value.  `examples` carries
the already-serialized `examples_json` string (`json.dumps` of the
provider's list). -/
structure VerbPayload where
  verb : String
  translation : String
  explanation : String
  examples : String
  deriving Repr, DecidableEq

/-- Result of `ensure_daily_assignment`: the returned triple, the store
state after the call, and whether the Content Provider was invoked. -/
structure EnsureResult where
  assignment : Assignment
  message : FormattedMessage
  created : Bool
  db : Database
  providerCalled : Bool
  deriving Repr, DecidableEq

/-- Embeds `ensure_daily_assignment` (`app/services/assignments.py`): if today's
assignment exists and `force_new` is false, return it unchanged without
touching the provider or the store; otherwise obtain a payload from the
provider and write through `Database.ensure_today_assignment`;
`created = force_new or existing is None`. -/
def ensure_daily_assignment (db : Database) (payload : VerbPayload) (user : User)
    (force_new : Bool) (today : Nat) : EnsureResult :=
  let existing := db.get_today_assignment user.id today
  match existing with
  | some e =>
      if force_new then
        let res := db.ensure_today_assignment user payload.verb payload.translation payload.explanation payload.examples force_new today
        { assignment := res.1
          message := format_assignment_message res.1.phrasal_verb res.1.translation res.1.explanation res.1.examples_json
          created := force_new || existing.isNone
          db := res.2
          providerCalled := true }
      else
        { assignment := e
          message := format_assignment_message e.phrasal_verb e.translation e.explanation e.examples_json
          created := false
          db := db
          providerCalled := false }
  | none =>
      let res := db.ensure_today_assignment user payload.verb payload.translation payload.explanation payload.examples force_new today
      { assignment := res.1
        message := format_assignment_message res.1.phrasal_verb res.1.translation res.1.explanation res.1.examples_json
        created := force_new || existing.isNone
        db := res.2
        providerCalled := true }

/-! Section: Follow-up planning (`LessonScheduler.plan_followups`, `app/scheduler.py`)

Local clock readings are seconds since local midnight of the current day
(`datetime` comparisons are absolute, so a candidate past midnight is
simply a value above `86400` and lies after the day's window end). -/

/-- Embeds `base_dt.replace(hour=11, minute=0, second=0, microsecond=0)`. -/
def windowStartSecs : Int := 11 * 3600

/-- Embeds `base_dt.replace(hour=23, minute=0, second=0, microsecond=0)`. -/
def windowEndSecs : Int := 23 * 3600

/-- The loop body of `plan_followups` (`app/scheduler.py`): raise a
candidate below the window start to the window start; skip it above the
window end; if still not after `base`, retry with
`min(window_end, base + 15min)` and skip if that is still not after
`base`. -/
def clampCandidate (base candidate : Int) : Option Int :=
  let candidate := if candidate < windowStartSecs then windowStartSecs else candidate
  if candidate > windowEndSecs then none
  else if candidate ≤ base then
    let candidate := min windowEndSecs (base + 15 * 60)
    if candidate ≤ base then none else some candidate
  else some candidate

/-- The deduplication loop of `plan_followups`: append a time only when
the accumulator is empty or the time is at least 60 seconds after the
last kept one. -/
def dedupStep (uniq : List Int) (t : Int) : List Int :=
  match uniq.getLast? with
  | none => uniq ++ [t]
  | some last => if t - last ≥ 60 then uniq ++ [t] else uniq

/-- Insert a value after every already-placed element that is `≤` it. -/
def insertSorted (t : Int) : List Int → List Int
  | [] => [t]
  | x :: xs => if x ≤ t then x :: insertSorted t xs else t :: x :: xs

/-- Python `sorted` on a list of times: stable ascending insertion sort
(structural recursion, so that concrete runs reduce in the kernel). -/
def pySorted (l : List Int) : List Int :=
  l.foldl (fun acc t => insertSorted t acc) []

/-- The follow-up times `plan_followups` registers for a send at local
time `base`: clamp the `base+2h` and `base+7h` candidates, sort, apply
the 60-second deduplication, keep at most the first two. -/
def planFollowupTimes (base : Int) : List Int :=
  let followTimes := ([base + 2 * 3600, base + 7 * 3600]).filterMap (clampCandidate base)
  let uniq := (pySorted followTimes).foldl dedupStep []
  uniq.take 2

/-! Section: Scheduler state (`LessonScheduler`, `app/scheduler.py`) -/

/-- An APScheduler trigger, restricted to the forms the source uses. -/
inductive Trigger where
  | cron (minute hour day month dow : String)
  | cronDaily (hour minute : Nat)
  | date (runAt : Int)
  deriving Repr, DecidableEq

/-- The callback a registered job would run. -/
inductive Callback where
  | runDefaultJob
  | sendCustomJob (userId : Nat)
  | sendFollowup (userId assignmentId which : Nat)
  | retryDelivery (userId assignmentId : Nat)
  deriving Repr, DecidableEq

/-- One entry of the in-memory APScheduler job table.  Every `add_job`
in the source passes `replace_existing=True`, so the `id` string is the
dedup key. -/
structure Job where
  id : String
  trigger : Trigger
  callback : Callback
  deriving Repr, DecidableEq

/-- Embeds `add_job(..., replace_existing=True)`: drop any job with the same id,
then register the new one. -/
def addJob (jobs : List Job) (job : Job) : List Job :=
  (jobs.filter (fun j => j.id ≠ job.id)) ++ [job]

/-- An observable interaction with the external collaborators: an
attempted Telegram text send, an attempted TTS synthesis, an attempted
Telegram audio send (each with its outcome), or a logged error. -/
inductive Event where
  | sendText (chatId : Nat) (ok : Bool)
  | synthAudio (chatId : Nat) (ok : Bool)
  | sendAudio (chatId : Nat) (ok : Bool)
  | logError (msg : String)
  deriving Repr, DecidableEq

/-- The scheduler's state: the store, the in-memory job table, and the
log of external interactions observed so far. -/
structure SchedulerState where
  db : Database
  jobs : List Job
  events : List Event
  deriving Repr, DecidableEq

/-- The outcomes the external collaborators produce during one delivery
attempt: whether `bot.send_message` succeeds, whether `tts.synthesize`
raises, whether it returns non-empty bytes, and whether `bot.send_audio`
succeeds (§6: the Delivery Sink and audio service report
success/failure; they are not modelled internally). -/
structure DeliveryOutcome where
  textOk : Bool
  synthOk : Bool
  audioBytes : Bool
  audioOk : Bool
  deriving Repr, DecidableEq

/-- Embeds `LessonScheduler._daily_job_id`. -/
def daily_job_id (user_id : Nat) : String :=
  "daily_assignment_" ++ toString user_id

/-- Embeds `LessonScheduler._followup_job_id`. -/
def followup_job_id (assignment_id which : Nat) : String :=
  "followup" ++ toString which ++ "_" ++ toString assignment_id

/-- Embeds `LessonScheduler._delivery_retry_job_id`. -/
def delivery_retry_job_id (assignment_id : Nat) : String :=
  "delivery_retry_" ++ toString assignment_id

/-- Embeds `LessonScheduler._schedule_delivery_retry` (`app/scheduler.py`):
register a one-shot `DateTrigger` job `delay_seconds` (60 at every call
site, the parameter's default) from now, keyed by the assignment id,
replacing any earlier job under that key. -/
def schedule_delivery_retry (st : SchedulerState) (user_id assignment_id : Nat)
    (now : Int) (delay_seconds : Int) : SchedulerState :=
  let job : Job :=
    { id := delivery_retry_job_id assignment_id
      trigger := .date (now + delay_seconds)
      callback := .retryDelivery user_id assignment_id }
  { st with jobs := addJob st.jobs job }

/-- Embeds `LessonScheduler.plan_followups` (`app/scheduler.py`): register the
computed times as `followup{1,2}_{assignment_id}` jobs with
`replace_existing=True`. -/
def plan_followups (st : SchedulerState) (user_id assignment_id : Nat) (now : Int) :
    SchedulerState :=
  let register := fun (jobs : List Job) (p : Nat × Int) =>
    let job : Job :=
      { id := followup_job_id assignment_id (p.1 + 1)
        trigger := .date p.2
        callback := .sendFollowup user_id assignment_id (p.1 + 1) }
    addJob jobs job
  { st with jobs := (planFollowupTimes now).enum.foldl register st.jobs }

/-- Embeds `LessonScheduler._send_voice_message` (`app/scheduler.py`): skip
silently when the stripped plain text is empty; a synthesis failure or a
send failure is logged and swallowed; empty synthesized bytes are
dropped silently.  The function receives only the chat id and the
formatted message — no user preference reaches it. -/
def send_voice_message (st : SchedulerState) (chat_id : Nat)
    (formatted : FormattedMessage) (o : DeliveryOutcome) : SchedulerState :=
  let plain_value := pyStrip formatted.plain
  if plain_value = "" then st
  else if !o.synthOk then
    { st with events := st.events ++ [.synthAudio chat_id false, .logError "Failed to generate voice message"] }
  else if !o.audioBytes then
    { st with events := st.events ++ [.synthAudio chat_id true] }
  else if o.audioOk then
    { st with events := st.events ++ [.synthAudio chat_id true, .sendAudio chat_id true] }
  else
    { st with events := st.events ++ [.synthAudio chat_id true, .sendAudio chat_id false, .logError "Failed to send voice message"] }

/-- The success block both send paths of `app/scheduler.py` end with
(after `bot.send_message` succeeded and `_send_voice_message` ran): mark
the assignment delivered, drop any pending delivery-retry job for it
(`remove_job` under `suppress`), and plan follow-ups when
`want_followups` holds and the row's status was `assigned`.  `st` is the
state after the voice step; the block is factored out here because the
source repeats it verbatim in `_send_assignment_to_user` and
`_deliver_existing_assignment`. -/
def deliver_success_tail (st : SchedulerState) (user : User) (assignment : Assignment)
    (want_followups : Bool) (now : Int) : SchedulerState :=
  let st4 : SchedulerState := { st with db := st.db.mark_assignment_delivered assignment.id now }
  let st5 : SchedulerState := { st4 with jobs := st4.jobs.filter (fun j => j.id ≠ delivery_retry_job_id assignment.id) }
  if want_followups && assignment.status == "assigned" then
    plan_followups st5 user.id assignment.id now
  else st5

/-- Embeds `LessonScheduler._send_assignment_to_user` (`app/scheduler.py`):
ensure today's assignment (never forcing), then attempt the text send;
on failure log and schedule a delivery retry; on success send the voice
rendition and run the success block, planning follow-ups when they were
requested and the row was fresh or undelivered. -/
def send_assignment_to_user (st : SchedulerState) (payload : VerbPayload) (user : User)
    (schedule_followups : Bool) (o : DeliveryOutcome) (now : Int) (today : Nat) :
    SchedulerState :=
  let res := ensure_daily_assignment st.db payload user false today
  let assignment := res.assignment
  let st1 : SchedulerState := { st with db := res.db }
  let need_followups := schedule_followups && (res.created || assignment.delivered_at.isNone)
  if !o.textOk then
    schedule_delivery_retry
      { st1 with events := st1.events ++ [.sendText user.chat_id false, .logError "Failed to send assignment message"] }
      user.id assignment.id now 60
  else
    deliver_success_tail
      (send_voice_message { st1 with events := st1.events ++ [.sendText user.chat_id true] }
        user.chat_id res.message o)
      user assignment need_followups now

/-- Embeds `LessonScheduler._deliver_existing_assignment` (`app/scheduler.py`):
same send path as a live send, but for an already-fetched row: format,
attempt the text send, on failure schedule a retry, on success send
voice and run the success block. -/
def deliver_existing_assignment (st : SchedulerState) (user : User)
    (assignment : Assignment) (schedule_followups : Bool) (o : DeliveryOutcome)
    (now : Int) : SchedulerState :=
  let text := format_assignment_message assignment.phrasal_verb assignment.translation
    assignment.explanation assignment.examples_json
  if !o.textOk then
    schedule_delivery_retry
      { st with events := st.events ++ [.sendText user.chat_id false, .logError "Failed to send assignment message"] }
      user.id assignment.id now 60
  else
    deliver_success_tail
      (send_voice_message { st with events := st.events ++ [.sendText user.chat_id true] }
        user.chat_id text o)
      user assignment schedule_followups now

/-- Embeds `LessonScheduler._retry_assignment_delivery` (`app/scheduler.py`):
re-resolve user and assignment; a missing user marks the assignment
delivered and returns; a missing or already-delivered assignment
returns; a stale assignment (earlier date or status not `assigned`) is
marked delivered; otherwise re-deliver with follow-up planning. -/
def retry_assignment_delivery (st : SchedulerState) (user_id assignment_id : Nat)
    (o : DeliveryOutcome) (now : Int) (today : Nat) : SchedulerState :=
  match st.db.get_user_by_id user_id with
  | none => { st with db := st.db.mark_assignment_delivered assignment_id now }
  | some user =>
    match st.db.get_assignment_by_id assignment_id with
    | none => st
    | some assignment =>
      if assignment.delivered_at.isSome then st
      else if assignment.date_assigned < today || assignment.status ≠ "assigned" then
        { st with db := st.db.mark_assignment_delivered assignment.id now }
      else
        deliver_existing_assignment st user assignment true o now

/-- The body of the recovery loop of
`LessonScheduler._deliver_pending_assignments` (`app/scheduler.py`); the
per-attempt outcomes are indexed by assignment id. -/
def deliver_pending_step (today : Nat) (o : Nat → DeliveryOutcome) (now : Int)
    (st : SchedulerState) (assignment : Assignment) : SchedulerState :=
  if assignment.date_assigned < today || assignment.status ≠ "assigned" then
    { st with db := st.db.mark_assignment_delivered assignment.id now }
  else
    match st.db.get_user_by_id assignment.user_id with
    | none => { st with db := st.db.mark_assignment_delivered assignment.id now }
    | some user => deliver_existing_assignment st user assignment true (o assignment.id) now

/-- Embeds `LessonScheduler._deliver_pending_assignments` (`app/scheduler.py`):
iterate the snapshot of undelivered rows taken before the loop. -/
def deliver_pending_assignments (st : SchedulerState) (today : Nat)
    (o : Nat → DeliveryOutcome) (now : Int) : SchedulerState :=
  (st.db.list_undelivered_assignments).foldl (deliver_pending_step today o now) st

/-! Section: Startup (`LessonScheduler.initialize`, `app/scheduler.py`) -/

/-- Python `str.split()` with no argument: split on whitespace runs,
discarding empty tokens. -/
def pySplit (s : String) : List String :=
  ((splitOnPred Char.isWhitespace s.toList).filter (fun cs => cs ≠ [])).map String.mk

/-- Python `int(s)` restricted to the plain decimal numerals that occur
in cron fields: `none` on anything that is not a non-empty digit
string. -/
def pyParseNat (s : String) : Option Nat :=
  let cs := s.toList
  if cs ≠ [] && cs.all Char.isDigit then
    some (cs.foldl (fun n c => 10 * n + (c.toNat - 48)) 0)
  else none

/-- Modelled from the external `apscheduler` dependency (not part of
this repository): `CronTrigger` raises `ValueError` for a field whose
expression is unrecognized or whose numeric value lies outside the
field's range.  Only the forms exercised here — `*` and plain numerals —
are modelled; everything else counts as raising. -/
def cronFieldValid (field : String) (lo hi : Nat) : Bool :=
  if field = "*" then true
  else match pyParseNat field with
    | some n => lo ≤ n && n ≤ hi
    | none => false

/-- Validity of the five cron fields, in the order
`CronTrigger(minute, hour, day, month, day_of_week)` receives them. -/
def cronTriggerValid (minute hour day month dow : String) : Bool :=
  cronFieldValid minute 0 59 && cronFieldValid hour 0 23 &&
    cronFieldValid day 1 31 && cronFieldValid month 1 12 && cronFieldValid dow 0 6

/-- Embeds `LessonScheduler._schedule_default_job` (`app/scheduler.py`).  The
`try/except ValueError` covers only the five-way unpacking of
`default_cron.split()`: a wrong field count is logged and the function
returns without a job; the subsequent `CronTrigger(...)` constructor is
outside the handler, so a `ValueError` it raises propagates
(`Except.error`). -/
def schedule_default_job (st : SchedulerState) (default_cron : String) :
    Except String SchedulerState :=
  match pySplit default_cron with
  | [minute, hour, day, month, dow] =>
      if cronTriggerValid minute hour day month dow then
        let job : Job :=
          { id := "daily_assignment"
            trigger := .cron minute hour day month dow
            callback := .runDefaultJob }
        Except.ok { st with jobs := addJob st.jobs job }
      else
        Except.error "ValueError: invalid cron field value"
  | _ =>
      Except.ok { st with events := st.events ++ [.logError "Invalid cron format for default schedule"] }

/-- Embeds `LessonScheduler._schedule_daily_job` (`app/scheduler.py`). -/
def schedule_daily_job (st : SchedulerState) (user_id hour minute : Nat) : SchedulerState :=
  let job : Job :=
    { id := daily_job_id user_id
      trigger := .cronDaily hour minute
      callback := .sendCustomJob user_id }
  { st with jobs := addJob st.jobs job }

/-- Embeds `LessonScheduler._schedule_existing_custom_jobs` (`app/scheduler.py`):
a `user-daily` job per user with both hour and minute set. -/
def schedule_existing_custom_jobs (st : SchedulerState) : SchedulerState :=
  st.db.list_users.foldl (fun acc user =>
    match user.daily_hour, user.daily_minute with
    | some h, some m => schedule_daily_job acc user.id h m
    | _, _ => acc) st

/-- Embeds `LessonScheduler.initialize` (`app/scheduler.py`): custom per-user
jobs, then the default job, then the recovery pass; an exception from
the default-job registration aborts the rest.  (`initialize` is a Lean
keyword, hence the suffix.) -/
def initializeScheduler (st : SchedulerState) (default_cron : String) (today : Nat)
    (o : Nat → DeliveryOutcome) (now : Int) : Except String SchedulerState :=
  match schedule_default_job (schedule_existing_custom_jobs st) default_cron with
  | Except.error e => Except.error e
  | Except.ok st2 => Except.ok (deliver_pending_assignments st2 today o now)

/-! Section: Spec-side readings (used only to compare against the code) -/

/-- Reading of claim C3's clamping sentence, stated independently of the
source's `clampCandidate` for comparison: a candidate before 11:00 local
is raised to 11:00; a candidate after 23:00 local is dropped; a
(possibly clamped) candidate that is still not after `base` is replaced
by `min(23:00, base + 15min)` and dropped when that is still not after
`base`. -/
def claimClamp (base c : Int) : Option Int :=
  let raised := if c < 11 * 3600 then 11 * 3600 else c
  if raised > 23 * 3600 then none
  else if raised ≤ base then
    let replaced := min (23 * 3600) (base + 15 * 60)
    if replaced ≤ base then none else some replaced
  else some raised

/-- Reading of claim C3's deduplication sentence: walk the sorted
survivors, keeping one exactly when it is at least 60 seconds after the
previously kept one. -/
def claimDedup : Option Int → List Int → List Int
  | _, [] => []
  | none, t :: ts => t :: claimDedup (some t) ts
  | some last, t :: ts =>
      if t - last ≥ 60 then t :: claimDedup (some t) ts
      else claimDedup (some last) ts

/-- Claim C3's whole pipeline: clamp both candidates, sort ascending,
deduplicate, register at most the first two survivors. -/
def claimFollowupTimes (base : Int) : List Int :=
  (claimDedup none (pySorted ([base + 2 * 3600, base + 7 * 3600].filterMap (claimClamp base)))).take 2

/-- One call of the assignment service, as quantified over by the
uniqueness claim: acting user, provider payload, `force_new` flag and
the calendar date at call time. -/
structure EnsureCall where
  user : User
  payload : VerbPayload
  force_new : Bool
  today : Nat
  deriving Repr, DecidableEq

/-- Run a sequence of `ensure_daily_assignment` calls against the store,
threading the state. -/
def runEnsureCalls (calls : List EnsureCall) (db : Database) : Database :=
  calls.foldl (fun acc c => (ensure_daily_assignment acc c.payload c.user c.force_new c.today).db) db

/-- One store operation on assignments, as quantified over by the
status-monotonicity claim. -/
inductive StoreOp where
  | ensure (user : User) (payload : VerbPayload) (force_new : Bool) (today : Nat)
  | create (user_id : Nat) (payload : VerbPayload) (today : Nat)
  | mastered (assignment_id : Nat)
  | followupSent (assignment_id which : Nat)
  | delivered (assignment_id : Nat) (now : Int)
  deriving Repr, DecidableEq

/-- Apply one store operation. -/
def applyStoreOp (db : Database) : StoreOp → Database
  | .ensure user payload force_new today =>
      (db.ensure_today_assignment user payload.verb payload.translation payload.explanation
        payload.examples force_new today).2
  | .create uid payload today =>
      (db.create_today_assignment uid payload.verb payload.translation payload.explanation
        payload.examples today).2
  | .mastered aid => db.mark_mastered aid
  | .followupSent aid which => db.mark_followup_sent aid which
  | .delivered aid now => db.mark_assignment_delivered aid now

/-- Whether an operation is not the force-regenerate overwrite (the one
sanctioned status reset). -/
def nonForcing : StoreOp → Bool
  | .ensure _ _ force_new _ => !force_new
  | _ => true

/-! Section: Concrete fixtures for witnesses and counterexamples -/

/-- Witness fixture: a user. -/
def wUser : User := { id := 1, chat_id := 5 }

/-- Witness fixture: an assignment of day 7 for `wUser`. -/
def wRow : Assignment :=
  { id := 1, user_id := 1, date_assigned := 7, phrasal_verb := "pick up",
    translation := "pt", explanation := "ex", examples_json := "[]" }

/-- Witness fixture: a store holding `wUser` and `wRow`. -/
def wDb : Database := { users := [wUser], assignments := [wRow], nextAssignmentId := 2 }

/-- Witness fixture: a provider payload. -/
def wPayload : VerbPayload :=
  { verb := "carry on", translation := "ct", explanation := "ce", examples := "[]" }

/-- Witness fixture: a store with no assignment yet. -/
def wDbEmpty : Database := { users := [wUser], assignments := [], nextAssignmentId := 1 }

/-- Witness fixture: `wRow` already mastered. -/
def wRowMastered : Assignment := { wRow with status := "mastered" }

/-- Witness fixture: a store whose single day-7 assignment is already
mastered. -/
def wDbMastered : Database :=
  { users := [wUser], assignments := [wRowMastered], nextAssignmentId := 2 }

/-- Fixture: a delivery attempt in which every external call succeeds. -/
def oAllOk : DeliveryOutcome :=
  { textOk := true, synthOk := true, audioBytes := true, audioOk := true }

/-- Fixture: a delivery attempt whose text send fails. -/
def oTextFail : DeliveryOutcome :=
  { textOk := false, synthOk := true, audioBytes := true, audioOk := true }

/-- Fixture: a delivery attempt whose audio send fails after a
successful text send and synthesis. -/
def oAudioFail : DeliveryOutcome :=
  { textOk := true, synthOk := true, audioBytes := true, audioOk := false }

/-- Fixture: every delivery attempt succeeds. -/
def oracleAllOk : Nat → DeliveryOutcome := fun _ => oAllOk

/-- Fixture: a scheduler whose store holds the current, undelivered
`wRow` but no user record at all (the row's user is missing). -/
def stOrphan : SchedulerState :=
  { db := { users := [], assignments := [wRow], nextAssignmentId := 2 }, jobs := [], events := [] }

/-- Fixture: a scheduler over the `wDb` store. -/
def stWithUser : SchedulerState := { db := wDb, jobs := [], events := [] }

/-- Fixture: an empty scheduler state. -/
def stEmptySched : SchedulerState := { db := emptyDatabase [], jobs := [], events := [] }

/-- Fixture: `wUser` with the audio preference switched off. -/
def wUserNoAudio : User := { id := 1, chat_id := 5, send_audio := false }

/-- Fixture: a scheduler whose store holds `wUserNoAudio` and the
current, undelivered `wRow`. -/
def stNoAudio : SchedulerState :=
  { db := { users := [wUserNoAudio], assignments := [wRow], nextAssignmentId := 2 }
    jobs := []
    events := [] }

/-! Section: Theorems -/

/-- Helper: the source's deduplication loop agrees with the claim's
last-kept-value recursion. -/
theorem foldl_dedupStep_eq (ts : List Int) :
    ∀ acc : List Int, ts.foldl dedupStep acc = acc ++ claimDedup acc.getLast? ts := by
  induction ts with
  | nil => intro acc; simp [claimDedup]
  | cons t ts ih =>
      intro acc
      cases h : acc.getLast? with
      | none =>
          simp only [List.foldl_cons, dedupStep, h, claimDedup, ih (acc ++ [t]),
            List.getLast?_concat, List.append_assoc, List.singleton_append]
      | some last =>
          by_cases hge : t - last ≥ 60
          · simp only [List.foldl_cons, dedupStep, h, claimDedup, if_pos hge,
              ih (acc ++ [t]), List.getLast?_concat, List.append_assoc, List.singleton_append]
          · simp only [List.foldl_cons, dedupStep, h, claimDedup, if_neg hge, ih acc]

/-- Helper: `addJob` grows the job table by at most one entry. -/
theorem addJob_length_le (jobs : List Job) (j : Job) :
    (addJob jobs j).length ≤ jobs.length + 1 := by
  simp only [addJob, List.length_append, List.length_cons, List.length_nil]
  have := List.length_filter_le (fun k : Job => decide (k.id ≠ j.id)) jobs
  omega

/-- C3: `plan_followups` clamps the `base+2h` and `base+7h` candidates
exactly as the claim states (raise below 11:00, drop above 23:00,
replace a not-after-base candidate by `min(23:00, base+15min)` or drop
it), sorts the survivors, keeps one only when at least 60 seconds after
the previously kept one, and registers at most the first two; in
particular a 09:00 base yields 11:00 and 16:00 and a 22:00 base yields
no follow-up time at all. -/
theorem plan_followups_pipeline :
    (∀ base : Int, planFollowupTimes base = claimFollowupTimes base)
    ∧ planFollowupTimes (9 * 3600) = [11 * 3600, 16 * 3600]
    ∧ planFollowupTimes (22 * 3600) = []
    ∧ (∀ base : Int, (planFollowupTimes base).length ≤ 2)
    ∧ (∀ (st : SchedulerState) (user_id assignment_id : Nat) (now : Int),
        (plan_followups st user_id assignment_id now).jobs.length ≤ st.jobs.length + 2) := by
  refine ⟨?_, by decide, by decide, ?_, ?_⟩
  · intro base
    have hclamp : clampCandidate base = claimClamp base := rfl
    simp only [planFollowupTimes, claimFollowupTimes, hclamp, foldl_dedupStep_eq,
      List.getLast?_nil, List.nil_append]
  · intro base
    have h := List.length_take 2 ((pySorted (([base + 2 * 3600, base + 7 * 3600]).filterMap (clampCandidate base))).foldl dedupStep [])
    simp only [planFollowupTimes]
    omega
  · intro st user_id assignment_id now
    have hlen : (planFollowupTimes now).length ≤ 2 := by
      have h := List.length_take 2 ((pySorted (([now + 2 * 3600, now + 7 * 3600]).filterMap (clampCandidate now))).foldl dedupStep [])
      simp only [planFollowupTimes]
      omega
    have key : ∀ (l : List (Nat × Int)) (jobs : List Job) (mk : Nat × Int → Job),
        (l.foldl (fun js p => addJob js (mk p)) jobs).length ≤ jobs.length + l.length := by
      intro l
      induction l with
      | nil => intro jobs mk; simp
      | cons p l ih =>
          intro jobs mk
          have h1 := ih (addJob jobs (mk p)) mk
          have h2 := addJob_length_le jobs (mk p)
          simp only [List.foldl_cons, List.length_cons]
          omega
    have heq : (plan_followups st user_id assignment_id now).jobs =
        (planFollowupTimes now).enum.foldl (fun js p => addJob js
          { id := followup_job_id assignment_id (p.1 + 1)
            trigger := .date p.2
            callback := .sendFollowup user_id assignment_id (p.1 + 1) }) st.jobs := rfl
    have h := key (planFollowupTimes now).enum st.jobs
      (fun p =>
        { id := followup_job_id assignment_id (p.1 + 1)
          trigger := .date p.2
          callback := .sendFollowup user_id assignment_id (p.1 + 1) })
    have henum : (planFollowupTimes now).enum.length = (planFollowupTimes now).length :=
      List.enum_length
    rw [heq]
    omega

/-- Helper: `replaceFirst` never changes the number of rows. -/
theorem length_replaceFirst (p : Assignment → Bool) (g : Assignment → Assignment) :
    ∀ l : List Assignment, (Database.replaceFirst p g l).length = l.length := by
  intro l
  induction l with
  | nil => rfl
  | cons a rest ih =>
      simp only [Database.replaceFirst]
      by_cases hp : p a
      · simp [hp]
      · simp [hp, ih]

/-- Helper: a row predicate invariant under the update function is
invariant under `replaceFirst`. -/
theorem all_replaceFirst (p : Assignment → Bool) (g : Assignment → Assignment)
    (r : Assignment → Bool) (hg : ∀ x, r (g x) = r x) :
    ∀ l : List Assignment, (Database.replaceFirst p g l).all r = l.all r := by
  intro l
  induction l with
  | nil => rfl
  | cons a rest ih =>
      simp only [Database.replaceFirst]
      by_cases hp : p a
      · simp [hp, hg]
      · simp [hp, ih]

/-- Helper: `replaceFirst` with a key-preserving update keeps keys
pairwise distinct. -/
theorem allDistinctBy_replaceFirst {κ : Type} [DecidableEq κ] (key : Assignment → κ)
    (p : Assignment → Bool) (g : Assignment → Assignment) (hg : ∀ x, key (g x) = key x) :
    ∀ l : List Assignment, allDistinctBy key (Database.replaceFirst p g l) = allDistinctBy key l := by
  intro l
  induction l with
  | nil => rfl
  | cons a rest ih =>
      simp only [Database.replaceFirst]
      by_cases hp : p a
      · simp only [hp, if_pos, allDistinctBy, hg a]
      · simp only [hp, if_neg, allDistinctBy, ih,
          all_replaceFirst p g (fun b => decide (key b ≠ key a)) (fun x => by simp [hg x])]

/-- Helper: appending a row whose key occurs nowhere keeps keys pairwise
distinct. -/
theorem allDistinctBy_append_singleton {κ : Type} [DecidableEq κ] (key : Assignment → κ)
    (a : Assignment) :
    ∀ l : List Assignment, allDistinctBy key l = true →
      l.all (fun b => decide (key b ≠ key a)) = true →
      allDistinctBy key (l ++ [a]) = true := by
  intro l
  induction l with
  | nil => intro _ _; simp [allDistinctBy]
  | cons x xs ih =>
      intro h1 h2
      simp only [allDistinctBy, Bool.and_eq_true] at h1
      obtain ⟨hx, hxs⟩ := h1
      simp only [List.all_cons, Bool.and_eq_true] at h2
      obtain ⟨hxa, hxsa⟩ := h2
      show allDistinctBy key (x :: (xs ++ [a])) = true
      simp only [allDistinctBy, Bool.and_eq_true]
      refine ⟨?_, ih hxs hxsa⟩
      simp only [List.all_append, Bool.and_eq_true]
      refine ⟨hx, ?_⟩
      simp only [List.all_cons, List.all_nil, Bool.and_true]
      simp only [decide_eq_true_eq] at hxa ⊢
      exact fun hcontra => hxa hcontra.symm

/-- Helper: `ensure_today_assignment` preserves the per-(user, date)
uniqueness invariant. -/
theorem uniquePerUserDate_ensure_today (db : Database) (user : User)
    (v t e j : String) (f : Bool) (today : Nat)
    (h : uniquePerUserDate db = true) :
    uniquePerUserDate (db.ensure_today_assignment user v t e j f today).2 = true := by
  unfold Database.ensure_today_assignment
  cases hfind : db.get_today_assignment user.id today with
  | some a =>
      by_cases hf : f
      · simp only [hfind, hf, if_pos]
        unfold uniquePerUserDate at h ⊢
        dsimp only
        rw [allDistinctBy_replaceFirst (fun a => (a.user_id, a.date_assigned))
          (fun a => a.user_id == user.id && a.date_assigned == today)
          (Database.overwriteAssignment v t e j)
          (fun x => rfl)]
        exact h
      · simp only [hfind, hf, if_neg]
        exact h
  | none =>
      simp only [hfind]
      unfold uniquePerUserDate at h ⊢
      apply allDistinctBy_append_singleton _ _ _ h
      have hnone := List.find?_eq_none.mp hfind
      simp only [List.all_eq_true, decide_eq_true_eq]
      intro b hb
      have := hnone b hb
      simp only [Bool.and_eq_true, beq_iff_eq] at this
      intro hkey
      apply this
      have h1 : b.user_id = user.id := congrArg Prod.fst hkey
      have h2 : b.date_assigned = today := congrArg Prod.snd hkey
      exact ⟨h1, h2⟩

/-- Helper: the service-level `ensure_daily_assignment` preserves the
uniqueness invariant. -/
theorem uniquePerUserDate_ensure_daily (db : Database) (payload : VerbPayload)
    (user : User) (f : Bool) (today : Nat)
    (h : uniquePerUserDate db = true) :
    uniquePerUserDate (ensure_daily_assignment db payload user f today).db = true := by
  unfold ensure_daily_assignment
  cases hfind : db.get_today_assignment user.id today with
  | some a =>
      by_cases hf : f
      · simpa [hfind, hf] using
          uniquePerUserDate_ensure_today db user payload.verb payload.translation
            payload.explanation payload.examples f today h
      · simpa [hfind, hf] using h
  | none =>
      simpa [hfind] using
        uniquePerUserDate_ensure_today db user payload.verb payload.translation
          payload.explanation payload.examples f today h

/-- C1: over any sequence of `ensure_daily_assignment` calls from an
empty store at most one assignment row per (user, date) ever exists;
`ensure_today_assignment` keeps the row count and the row identity when
a row for (user, today) exists, and appends exactly the returned fresh
row when none does. -/
theorem assignment_uniqueness_invariant :
    (∀ (users : List User) (calls : List EnsureCall),
        uniquePerUserDate (runEnsureCalls calls (emptyDatabase users)) = true)
    ∧ (∀ (db : Database) (payload : VerbPayload) (user : User) (f : Bool) (today : Nat),
        uniquePerUserDate db = true →
          uniquePerUserDate (ensure_daily_assignment db payload user f today).db = true)
    ∧ (∀ (db : Database) (user : User) (v t e j : String) (f : Bool) (today : Nat) (a : Assignment),
        db.get_today_assignment user.id today = some a →
          (db.ensure_today_assignment user v t e j f today).2.assignments.length
              = db.assignments.length
            ∧ (db.ensure_today_assignment user v t e j f today).1.id = a.id)
    ∧ (∀ (db : Database) (user : User) (v t e j : String) (f : Bool) (today : Nat),
        db.get_today_assignment user.id today = none →
          (db.ensure_today_assignment user v t e j f today).2.assignments =
            db.assignments ++ [(db.ensure_today_assignment user v t e j f today).1]) := by
  refine ⟨?_, uniquePerUserDate_ensure_daily, ?_, ?_⟩
  · intro users calls
    have base : uniquePerUserDate (emptyDatabase users) = true := rfl
    rw [runEnsureCalls]
    generalize emptyDatabase users = db at base ⊢
    induction calls generalizing db with
    | nil => exact base
    | cons c cs ih =>
        simp only [List.foldl_cons]
        exact ih _ (uniquePerUserDate_ensure_daily db c.payload c.user c.force_new c.today base)
  · intro db user v t e j f today a hfind
    unfold Database.ensure_today_assignment
    by_cases hf : f
    · simp [hfind, hf, length_replaceFirst, Database.overwriteAssignment]
    · simp [hfind, hf]
  · intro db user v t e j f today hfind
    unfold Database.ensure_today_assignment
    simp [hfind]

/-- C8: with an existing assignment for today and `force_new = false`
the service returns the row unchanged — same store, no provider call,
`created = false` — and in every case the `created` flag equals
`force_new OR (no prior record existed)`. -/
theorem ensure_daily_assignment_contract :
    (∀ (db : Database) (payload : VerbPayload) (user : User) (today : Nat) (e : Assignment),
        db.get_today_assignment user.id today = some e →
          ensure_daily_assignment db payload user false today =
            { assignment := e
              message := format_assignment_message e.phrasal_verb e.translation e.explanation e.examples_json
              created := false
              db := db
              providerCalled := false })
    ∧ (∀ (db : Database) (payload : VerbPayload) (user : User) (force_new : Bool) (today : Nat),
        (ensure_daily_assignment db payload user force_new today).created =
          (force_new || (db.get_today_assignment user.id today).isNone)) := by
  constructor
  · intro db payload user today e h
    simp [ensure_daily_assignment, h]
  · intro db payload user force_new today
    unfold ensure_daily_assignment
    cases h : db.get_today_assignment user.id today with
    | some e => cases force_new <;> simp [h]
    | none => simp [h]

/-- Witness for C1 at concrete inputs: the invariant-preservation,
existing-row and fresh-row conjuncts instantiated on `wDb` and
`wDbEmpty`. -/
theorem assignment_uniqueness_invariant_witness :
    (uniquePerUserDate wDb = true
      ∧ uniquePerUserDate (ensure_daily_assignment wDb wPayload wUser true 7).db = true)
    ∧ (wDb.get_today_assignment wUser.id 7 = some wRow
      ∧ ((wDb.ensure_today_assignment wUser "v" "t" "e" "[]" true 7).2.assignments.length
            = wDb.assignments.length
          ∧ (wDb.ensure_today_assignment wUser "v" "t" "e" "[]" true 7).1.id = wRow.id))
    ∧ (wDbEmpty.get_today_assignment wUser.id 7 = none
      ∧ (wDbEmpty.ensure_today_assignment wUser "v" "t" "e" "[]" false 7).2.assignments =
          wDbEmpty.assignments ++ [(wDbEmpty.ensure_today_assignment wUser "v" "t" "e" "[]" false 7).1]) :=
  ⟨⟨by decide, assignment_uniqueness_invariant.2.1 wDb wPayload wUser true 7 (by decide)⟩,
    ⟨by decide, assignment_uniqueness_invariant.2.2.1 wDb wUser "v" "t" "e" "[]" true 7 wRow (by decide)⟩,
    ⟨by decide, assignment_uniqueness_invariant.2.2.2 wDbEmpty wUser "v" "t" "e" "[]" false 7 (by decide)⟩⟩

/-- Witness for C8 at concrete inputs: an existing day-7 assignment is
returned unchanged with `created = false` and no provider call. -/
theorem ensure_daily_assignment_contract_witness :
    wDb.get_today_assignment wUser.id 7 = some wRow ∧
    ensure_daily_assignment wDb wPayload wUser false 7 =
      { assignment := wRow
        message := format_assignment_message wRow.phrasal_verb wRow.translation
          wRow.explanation wRow.examples_json
        created := false
        db := wDb
        providerCalled := false } :=
  ⟨by decide, ensure_daily_assignment_contract.1 wDb wPayload wUser 7 wRow (by decide)⟩

/-- Helper: a row predicate invariant under the update function is
invariant under `List.map`. -/
theorem all_map_of_fixed (g : Assignment → Assignment) (r : Assignment → Bool)
    (h : ∀ x, r (g x) = r x) :
    ∀ l : List Assignment, (l.map g).all r = l.all r := by
  intro l
  induction l with
  | nil => rfl
  | cons a rest ih => simp [h, ih]

/-- Helper: a key-preserving map keeps keys pairwise distinct. -/
theorem allDistinctBy_map {κ : Type} [DecidableEq κ] (key : Assignment → κ)
    (g : Assignment → Assignment) (hg : ∀ x, key (g x) = key x) :
    ∀ l : List Assignment, allDistinctBy key (l.map g) = allDistinctBy key l := by
  intro l
  induction l with
  | nil => rfl
  | cons a rest ih =>
      simp only [List.map_cons, allDistinctBy, ih, hg a]
      rw [all_map_of_fixed g (fun b => decide (key b ≠ key a)) (fun x => by simp [hg x])]

/-- Helper: `updateById` with an id-preserving update keeps the store
well-formed. -/
theorem wellFormed_updateById (db : Database) (aid : Nat) (f : Assignment → Assignment)
    (hf : ∀ x, (f x).id = x.id) (h : WellFormed db = true) :
    WellFormed (db.updateById aid f) = true := by
  unfold WellFormed at h
  unfold WellFormed Database.updateById
  dsimp only
  have hg : ∀ x : Assignment, (if x.id == aid then f x else x).id = x.id := by
    intro x; split <;> simp [hf]
  rw [allDistinctBy_map (fun a => a.id) _ hg,
    all_map_of_fixed _ (fun a => decide (a.id < db.nextAssignmentId))
      (fun x => congrArg (fun m => decide (m < db.nextAssignmentId)) (hg x))]
  exact h

/-- Helper: `updateById` with an id-preserving, mastered-preserving
update keeps every row of a given id mastered. -/
theorem mastersStay_updateById (db : Database) (aid : Nat) (f : Assignment → Assignment)
    (k : Nat) (hid : ∀ x, (f x).id = x.id)
    (hst : ∀ x, x.status = "mastered" → (f x).status = "mastered")
    (h : ∀ b ∈ db.assignments, b.id = k → b.status = "mastered") :
    ∀ b ∈ (db.updateById aid f).assignments, b.id = k → b.status = "mastered" := by
  intro b hb hbk
  unfold Database.updateById at hb
  simp only [List.mem_map] at hb
  obtain ⟨x, hx, hxb⟩ := hb
  subst hxb
  by_cases hmatch : (x.id == aid) = true
  · rw [if_pos hmatch] at hbk ⊢
    exact hst x (h x hx (by rw [hid x] at hbk; exact hbk))
  · rw [if_neg (by simpa using hmatch)] at hbk ⊢
    exact h x hx hbk

/-- Helper: appending a fresh row (id = counter) preserves
well-formedness, keeps every mastered id mastered, and raises the
counter. -/
theorem inv_append_fresh (db : Database) (new : Assignment) (k : Nat)
    (hnew : new.id = db.nextAssignmentId)
    (hw : WellFormed db = true) (hk : k < db.nextAssignmentId)
    (h : ∀ b ∈ db.assignments, b.id = k → b.status = "mastered") :
    WellFormed { db with
      assignments := db.assignments ++ [new]
      nextAssignmentId := db.nextAssignmentId + 1 } = true
    ∧ k < db.nextAssignmentId + 1
    ∧ ∀ b ∈ db.assignments ++ [new], b.id = k → b.status = "mastered" := by
  unfold WellFormed at hw
  simp only [Bool.and_eq_true] at hw
  obtain ⟨hdist, hbound⟩ := hw
  refine ⟨?_, by omega, ?_⟩
  · unfold WellFormed
    dsimp only
    simp only [Bool.and_eq_true]
    constructor
    · apply allDistinctBy_append_singleton _ _ _ hdist
      simp only [List.all_eq_true, decide_eq_true_eq] at hbound ⊢
      intro b hb
      have := hbound b hb
      omega
    · simp only [List.all_eq_true, List.mem_append, List.mem_singleton,
        decide_eq_true_eq] at hbound ⊢
      rintro b (hb | rfl)
      · have := hbound b hb; omega
      · omega
  · intro b hb hbk
    rcases List.mem_append.mp hb with hbl | hbr
    · exact h b hbl hbk
    · simp only [List.mem_singleton] at hbr
      subst hbr
      omega

/-- Helper: one non-forcing store operation preserves well-formedness,
the counter bound, and keeps every row of a mastered id mastered. -/
theorem inv_applyStoreOp (db : Database) (op : StoreOp) (k : Nat)
    (hop : nonForcing op = true)
    (hw : WellFormed db = true) (hk : k < db.nextAssignmentId)
    (h : ∀ b ∈ db.assignments, b.id = k → b.status = "mastered") :
    WellFormed (applyStoreOp db op) = true
    ∧ k < (applyStoreOp db op).nextAssignmentId
    ∧ ∀ b ∈ (applyStoreOp db op).assignments, b.id = k → b.status = "mastered" := by
  cases op with
  | ensure user payload force_new today =>
      have hforce : force_new = false := by
        simpa [nonForcing] using hop
      subst hforce
      simp only [applyStoreOp]
      unfold Database.ensure_today_assignment
      cases hfind : db.get_today_assignment user.id today with
      | some a => simpa using ⟨hw, hk, h⟩
      | none =>
          simp only [hfind]
          exact inv_append_fresh db
            { id := db.nextAssignmentId, user_id := user.id, date_assigned := today,
              phrasal_verb := payload.verb, translation := payload.translation,
              explanation := payload.explanation, examples_json := payload.examples,
              status := "assigned", delivered_at := none } k rfl hw hk h
  | create uid payload today =>
      simp only [applyStoreOp]
      unfold Database.create_today_assignment
      exact inv_append_fresh db
        { id := db.nextAssignmentId, user_id := uid, date_assigned := today,
          phrasal_verb := payload.verb, translation := payload.translation,
          explanation := payload.explanation, examples_json := payload.examples,
          status := "assigned", delivered_at := none } k rfl hw hk h
  | mastered aid =>
      refine ⟨wellFormed_updateById db aid _ (fun x => rfl) hw, hk, ?_⟩
      exact mastersStay_updateById db aid _ k (fun x => rfl) (fun x _ => rfl) h
  | followupSent aid which =>
      refine ⟨wellFormed_updateById db aid _
        (fun x => by cases hw1 : (which == 1) <;> cases hw2 : (which == 2) <;> simp [hw1, hw2]) hw,
        hk, ?_⟩
      refine mastersStay_updateById db aid _ k
        (fun x => by cases hw1 : (which == 1) <;> cases hw2 : (which == 2) <;> simp [hw1, hw2])
        (fun x hx => by cases hw1 : (which == 1) <;> cases hw2 : (which == 2) <;>
          simp [hw1, hw2, hx]) h
  | delivered aid now =>
      refine ⟨wellFormed_updateById db aid _ (fun x => rfl) hw, hk, ?_⟩
      exact mastersStay_updateById db aid _ k (fun x => rfl) (fun x hx => hx) h

/-- C9: across any sequence of store operations that contains no
force-regenerate (`ensure_today_assignment` with `force_new = true`),
every row that is `mastered` stays `mastered` — in particular
`mark_mastered`, `mark_followup_sent` and `mark_assignment_delivered`
never move a row's status away from `mastered`. -/
theorem status_mastered_monotonic :
    ∀ (ops : List StoreOp) (db : Database) (k : Nat),
      (∀ op ∈ ops, nonForcing op = true) →
      WellFormed db = true →
      k < db.nextAssignmentId →
      (∀ b ∈ db.assignments, b.id = k → b.status = "mastered") →
      ∀ b ∈ (ops.foldl applyStoreOp db).assignments, b.id = k → b.status = "mastered" := by
  intro ops
  induction ops with
  | nil => intro db k _ _ _ h; simpa using h
  | cons op rest ih =>
      intro db k hops hw hk h
      have hop := hops op (List.mem_cons_self op rest)
      have hrest : ∀ o ∈ rest, nonForcing o = true :=
        fun o ho => hops o (List.mem_cons_of_mem op ho)
      obtain ⟨hw', hk', h'⟩ := inv_applyStoreOp db op k hop hw hk h
      simpa using ih (applyStoreOp db op) k hrest hw' hk' h'

/-- Witness for C9 at concrete inputs: a mastered day-7 row stays
mastered across a follow-up mark, a delivery mark, a non-forcing ensure
and a fresh-row creation. -/
theorem status_mastered_monotonic_witness :
    (∀ op ∈ ([.followupSent 1 1, .delivered 1 4, .ensure wUser wPayload false 7,
        .create 1 wPayload 8] : List StoreOp), nonForcing op = true)
    ∧ WellFormed wDbMastered = true
    ∧ 1 < wDbMastered.nextAssignmentId
    ∧ (∀ b ∈ wDbMastered.assignments, b.id = 1 → b.status = "mastered")
    ∧ (∀ b ∈ (([.followupSent 1 1, .delivered 1 4, .ensure wUser wPayload false 7,
        .create 1 wPayload 8] : List StoreOp).foldl applyStoreOp wDbMastered).assignments,
        b.id = 1 → b.status = "mastered") :=
  ⟨by decide, by decide, by decide, by decide,
    status_mastered_monotonic _ wDbMastered 1 (by decide) (by decide) (by decide) (by decide)⟩

/-- Helper: marking a row delivered removes exactly that id from the
undelivered rows. -/
theorem undelivered_after_mark (k : Nat) (now : Int) :
    ∀ l : List Assignment,
      (l.map (fun a => if a.id == k then { a with delivered_at := some now } else a)).filter
          (fun a => a.delivered_at.isNone) =
        l.filter (fun a => !(a.id == k) && a.delivered_at.isNone) := by
  intro l
  induction l with
  | nil => rfl
  | cons a rest ih =>
      by_cases hid : a.id = k
      · simp [hid] at ih ⊢
        exact ih
      · by_cases hdel : a.delivered_at.isNone = true <;>
          · simp [hid, hdel] at ih ⊢
            exact ih

/-- C10: an undelivered assignment whose user record cannot be loaded is
marked delivered without any send attempt, both by the recovery-pass
loop body and by the delivery-retry job, and a row marked delivered
drops out of the undelivered set for good. -/
theorem orphan_assignment_retired :
    (∀ (st : SchedulerState) (a : Assignment) (today : Nat) (o : Nat → DeliveryOutcome) (now : Int),
        st.db.get_user_by_id a.user_id = none →
          deliver_pending_step today o now st a =
            { st with db := st.db.mark_assignment_delivered a.id now })
    ∧ (∀ (st : SchedulerState) (user_id assignment_id : Nat) (o : DeliveryOutcome)
        (now : Int) (today : Nat),
        st.db.get_user_by_id user_id = none →
          retry_assignment_delivery st user_id assignment_id o now today =
            { st with db := st.db.mark_assignment_delivered assignment_id now })
    ∧ (∀ (db : Database) (assignment_id : Nat) (now : Int),
        (db.mark_assignment_delivered assignment_id now).list_undelivered_assignments =
          db.list_undelivered_assignments.filter (fun a => !(a.id == assignment_id))) := by
  refine ⟨?_, ?_, ?_⟩
  · intro st a today o now h
    unfold deliver_pending_step
    by_cases hstale : (decide (a.date_assigned < today) || decide (a.status ≠ "assigned")) = true
    · rw [if_pos hstale]
    · rw [if_neg hstale, h]
  · intro st user_id assignment_id o now today h
    unfold retry_assignment_delivery
    rw [h]
  · intro db assignment_id now
    unfold Database.mark_assignment_delivered Database.updateById
      Database.list_undelivered_assignments
    dsimp only
    rw [undelivered_after_mark assignment_id now db.assignments, List.filter_filter]

/-- Witness for C10 at concrete inputs: the orphaned current `wRow` is
retired by both paths and leaves the undelivered set. -/
theorem orphan_assignment_retired_witness :
    stOrphan.db.get_user_by_id wRow.user_id = none
    ∧ deliver_pending_step 7 oracleAllOk 0 stOrphan wRow =
        { stOrphan with db := stOrphan.db.mark_assignment_delivered wRow.id 0 }
    ∧ retry_assignment_delivery stOrphan 1 1 oAllOk 0 7 =
        { stOrphan with db := stOrphan.db.mark_assignment_delivered 1 0 } :=
  ⟨by decide,
    orphan_assignment_retired.1 stOrphan wRow 7 oracleAllOk 0 (by decide),
    orphan_assignment_retired.2.1 stOrphan 1 1 oAllOk 0 7 (by decide)⟩

/-- Helper: a default cron string that does not split into five fields
is logged and skipped without raising. -/
theorem schedule_default_job_wrong_count (st : SchedulerState) (cron : String)
    (h : (pySplit cron).length ≠ 5) :
    schedule_default_job st cron =
      Except.ok { st with events := st.events ++ [.logError "Invalid cron format for default schedule"] } := by
  unfold schedule_default_job
  split
  · next minute hour day month dow heq =>
      exfalso
      apply h
      rw [heq]
      rfl
  · rfl

/-- C7 (amended): a default cron expression that does not consist of
exactly five whitespace-separated fields does not raise — the
default-daily job is not registered, the error is logged, and custom
per-user jobs and the recovery pass still run; the `try/except` does not
cover the trigger constructor, so a five-field expression with an
invalid field value raises out of `initialize` (see the
counterexample). -/
theorem invalid_cron_format_skipped :
    ∀ (st : SchedulerState) (cron : String) (today : Nat) (o : Nat → DeliveryOutcome) (now : Int),
      (pySplit cron).length ≠ 5 →
      initializeScheduler st cron today o now =
        Except.ok (deliver_pending_assignments
          { schedule_existing_custom_jobs st with
            events := (schedule_existing_custom_jobs st).events ++
              [.logError "Invalid cron format for default schedule"] } today o now) := by
  intro st cron today o now h
  unfold initializeScheduler
  rw [schedule_default_job_wrong_count _ cron h]

/-- Witness for C7's amended theorem at a concrete input: the cron
string `"invalid"` is skipped with a logged error and recovery still
runs. -/
theorem invalid_cron_format_skipped_witness :
    (pySplit "invalid").length ≠ 5
    ∧ initializeScheduler stWithUser "invalid" 7 oracleAllOk 0 =
        Except.ok (deliver_pending_assignments
          { schedule_existing_custom_jobs stWithUser with
            events := (schedule_existing_custom_jobs stWithUser).events ++
              [.logError "Invalid cron format for default schedule"] } 7 oracleAllOk 0) :=
  ⟨by decide, invalid_cron_format_skipped stWithUser "invalid" 7 oracleAllOk 0 (by decide)⟩

/-- Counterexample to C7 as stated: `"61 0 * * *"` is an invalid cron
expression (61 exceeds the minute field's range, so the trigger
constructor raises `ValueError`), yet `initialize` propagates the
exception instead of logging and continuing — startup does raise. -/
theorem invalid_cron_value_crashes_startup :
    cronTriggerValid "61" "0" "*" "*" "*" = false
    ∧ pySplit "61 0 * * *" = ["61", "0", "*", "*", "*"]
    ∧ initializeScheduler stEmptySched "61 0 * * *" 10 oracleAllOk 0 =
        Except.error "ValueError: invalid cron field value" := by
  refine ⟨by decide, by decide, ?_⟩
  rfl

/-- Helper: follow-up job ids never collide with delivery-retry job
ids (they start with different letters). -/
theorem followup_job_id_ne_delivery_retry (aid w b : Nat) :
    followup_job_id aid w ≠ delivery_retry_job_id b := by
  intro h
  have hd := congrArg String.data h
  unfold followup_job_id delivery_retry_job_id at hd
  rw [String.data_append, String.data_append, String.data_append, String.data_append] at hd
  have h1 : ((("followup".data ++ (toString w).data) ++ "_".data) ++ (toString aid).data).head?
      = some 'f' := rfl
  have h2 : ("delivery_retry_".data ++ (toString b).data).head? = some 'd' := rfl
  rw [hd, h2] at h1
  exact absurd (Option.some.inj h1) (by decide)

/-- Helper: after `addJob` of a job under key `k`, exactly that job is
registered under `k`. -/
theorem filter_addJob_self (jobs : List Job) (j : Job) (k : String) (h : j.id = k) :
    (addJob jobs j).filter (fun x => decide (x.id = k)) = [j] := by
  unfold addJob
  rw [List.filter_append, List.filter_filter]
  have h1 : jobs.filter (fun x => decide (x.id = k) && decide (x.id ≠ j.id)) = [] := by
    apply List.filter_eq_nil_iff.mpr
    intro x _
    by_cases hxk : x.id = k
    · simp [hxk, h]
    · simp [hxk]
  rw [h1]
  simp [h]

/-- Helper: `addJob` of a job under a different key leaves the jobs
registered under `k` unchanged. -/
theorem filter_addJob_other (jobs : List Job) (j : Job) (k : String) (h : j.id ≠ k) :
    (addJob jobs j).filter (fun x => decide (x.id = k)) =
      jobs.filter (fun x => decide (x.id = k)) := by
  unfold addJob
  rw [List.filter_append, List.filter_filter]
  have h2 : List.filter (fun x => decide (x.id = k)) [j] = [] := by
    simp [h]
  rw [h2, List.append_nil]
  apply List.filter_congr
  intro x _
  by_cases hxk : x.id = k
  · simp [hxk, Ne.symm h]
  · simp [hxk]

/-- Helper: removing key `k` from the table leaves nothing registered
under `k`. -/
theorem filter_after_remove (jobs : List Job) (k : String) :
    (jobs.filter (fun j => decide (j.id ≠ k))).filter (fun j => decide (j.id = k)) = [] := by
  rw [List.filter_filter]
  apply List.filter_eq_nil_iff.mpr
  intro x _
  by_cases hxk : x.id = k
  · simp [hxk]
  · simp [hxk]

/-- Helper: `plan_followups` leaves the delivery-retry registrations of
every assignment untouched. -/
theorem plan_followups_filter_retry (st : SchedulerState) (u aid : Nat) (now : Int) (k : Nat) :
    (plan_followups st u aid now).jobs.filter (fun j => decide (j.id = delivery_retry_job_id k)) =
      st.jobs.filter (fun j => decide (j.id = delivery_retry_job_id k)) := by
  have key : ∀ (l : List (Nat × Int)) (jobs : List Job) (mk : Nat × Int → Job),
      (∀ p, (mk p).id ≠ delivery_retry_job_id k) →
      (l.foldl (fun js p => addJob js (mk p)) jobs).filter
          (fun j => decide (j.id = delivery_retry_job_id k)) =
        jobs.filter (fun j => decide (j.id = delivery_retry_job_id k)) := by
    intro l
    induction l with
    | nil => intro jobs mk _; rfl
    | cons p rest ih =>
        intro jobs mk hmk
        simp only [List.foldl_cons]
        rw [ih (addJob jobs (mk p)) mk hmk, filter_addJob_other jobs (mk p) _ (hmk p)]
  have heq : (plan_followups st u aid now).jobs =
      (planFollowupTimes now).enum.foldl (fun js p => addJob js
        { id := followup_job_id aid (p.1 + 1)
          trigger := .date p.2
          callback := .sendFollowup u aid (p.1 + 1) }) st.jobs := rfl
  rw [heq]
  exact key _ st.jobs _ (fun p => followup_job_id_ne_delivery_retry aid (p.1 + 1) k)

/-- Helper: `plan_followups` touches only the job table. -/
theorem plan_followups_state (st : SchedulerState) (u aid : Nat) (now : Int) :
    (plan_followups st u aid now).db = st.db ∧ (plan_followups st u aid now).events = st.events :=
  ⟨rfl, rfl⟩

/-- Helper: `_send_voice_message` touches only the event log. -/
theorem send_voice_message_state (st : SchedulerState) (c : Nat) (f : FormattedMessage)
    (o : DeliveryOutcome) :
    (send_voice_message st c f o).db = st.db ∧ (send_voice_message st c f o).jobs = st.jobs := by
  simp only [send_voice_message]
  by_cases hp : pyStrip f.plain = ""
  · rw [if_pos hp]; exact ⟨rfl, rfl⟩
  · rw [if_neg hp]
    refine ⟨?_, ?_⟩ <;> (repeat' split) <;> rfl

/-- Helper: `_send_voice_message` only appends to the event log. -/
theorem send_voice_message_events_prefix (st : SchedulerState) (c : Nat) (f : FormattedMessage)
    (o : DeliveryOutcome) :
    ∃ suf, (send_voice_message st c f o).events = st.events ++ suf := by
  simp only [send_voice_message]
  by_cases hp : pyStrip f.plain = ""
  · rw [if_pos hp]; exact ⟨[], (List.append_nil _).symm⟩
  · rw [if_neg hp]
    repeat' split
    all_goals exact ⟨_, rfl⟩

/-- Helper: when the plain text is non-empty, `_send_voice_message`
records the synthesis attempt with its outcome. -/
theorem send_voice_message_synth_mem (st : SchedulerState) (c : Nat) (f : FormattedMessage)
    (o : DeliveryOutcome) (h : ¬ pyStrip f.plain = "") :
    Event.synthAudio c o.synthOk ∈ (send_voice_message st c f o).events := by
  simp only [send_voice_message]
  rw [if_neg h]
  cases hs : o.synthOk with
  | false => simp [hs]
  | true =>
      cases hb : o.audioBytes with
      | false => simp [hb]
      | true =>
          cases ha : o.audioOk with
          | false => simp [ha, hb]
          | true => simp [ha, hb]

/-- Helper: a failed audio send (synthesis fine, bytes produced) is
logged. -/
theorem send_voice_message_audio_failure_logged (st : SchedulerState) (c : Nat)
    (f : FormattedMessage) (o : DeliveryOutcome) (h : ¬ pyStrip f.plain = "")
    (hs : o.synthOk = true) (hb : o.audioBytes = true) (ha : o.audioOk = false) :
    Event.logError "Failed to send voice message" ∈ (send_voice_message st c f o).events := by
  simp only [send_voice_message]
  rw [if_neg h]
  simp [hs, hb, ha]

/-- Helper: `mark_assignment_delivered` stamps every row with the given
id. -/
theorem mark_delivered_sets (db : Database) (aid : Nat) (now : Int) :
    ∀ b ∈ (db.mark_assignment_delivered aid now).assignments,
      b.id = aid → b.delivered_at = some now := by
  intro b hb hbk
  unfold Database.mark_assignment_delivered Database.updateById at hb
  simp only [List.mem_map] at hb
  obtain ⟨x, hx, hxb⟩ := hb
  subst hxb
  by_cases hmatch : (x.id == aid) = true
  · rw [if_pos hmatch]
  · rw [if_neg hmatch] at hbk ⊢
    exact absurd (by simpa using hbk) (by simpa using hmatch)

/-- Helper: the success block stamps the row delivered, leaves no
delivery-retry registration for it, and appends no events. -/
theorem deliver_success_tail_facts (st : SchedulerState) (u : User) (a : Assignment)
    (w : Bool) (now : Int) :
    (∀ b ∈ (deliver_success_tail st u a w now).db.assignments,
        b.id = a.id → b.delivered_at = some now)
    ∧ (deliver_success_tail st u a w now).jobs.filter
        (fun j => decide (j.id = delivery_retry_job_id a.id)) = []
    ∧ (deliver_success_tail st u a w now).events = st.events := by
  unfold deliver_success_tail
  by_cases hc : (w && a.status == "assigned") = true
  · rw [if_pos hc]
    refine ⟨?_, ?_, ?_⟩
    · intro b hb hbk
      rw [(plan_followups_state _ _ _ _).1] at hb
      exact mark_delivered_sets _ a.id now b hb hbk
    · rw [plan_followups_filter_retry]
      exact filter_after_remove _ _
    · exact (plan_followups_state _ _ _ _).2
  · rw [if_neg hc]
    refine ⟨?_, ?_, ?_⟩
    · intro b hb hbk
      exact mark_delivered_sets _ a.id now b hb hbk
    · exact filter_after_remove _ _
    · rfl

/-- Helper: with a successful text send, `_deliver_existing_assignment`
is the voice step followed by the success block. -/
theorem deliver_existing_eq_of_textOk (st : SchedulerState) (u : User) (a : Assignment)
    (sched : Bool) (o : DeliveryOutcome) (now : Int) (ho : o.textOk = true) :
    deliver_existing_assignment st u a sched o now =
      deliver_success_tail
        (send_voice_message { st with events := st.events ++ [.sendText u.chat_id true] }
          u.chat_id (format_assignment_message a.phrasal_verb a.translation a.explanation a.examples_json) o)
        u a sched now := by
  unfold deliver_existing_assignment
  rw [ho]
  rfl

/-- Helper: with a failed text send, `_deliver_existing_assignment` only
logs and schedules the delivery retry. -/
theorem deliver_existing_eq_of_textFail (st : SchedulerState) (u : User) (a : Assignment)
    (sched : Bool) (o : DeliveryOutcome) (now : Int) (ho : o.textOk = false) :
    deliver_existing_assignment st u a sched o now =
      schedule_delivery_retry
        { st with events := st.events ++ [.sendText u.chat_id false, .logError "Failed to send assignment message"] }
        u.id a.id now 60 := by
  unfold deliver_existing_assignment
  rw [ho]
  rfl

/-- Helper: with a failed text send, `_send_assignment_to_user` keeps
the store as the assignment service left it and schedules the delivery
retry. -/
theorem send_assignment_eq_of_textFail (st : SchedulerState) (payload : VerbPayload)
    (user : User) (sched : Bool) (o : DeliveryOutcome) (now : Int) (today : Nat)
    (ho : o.textOk = false) :
    send_assignment_to_user st payload user sched o now today =
      schedule_delivery_retry
        { db := (ensure_daily_assignment st.db payload user false today).db
          jobs := st.jobs
          events := st.events ++ [.sendText user.chat_id false, .logError "Failed to send assignment message"] }
        user.id (ensure_daily_assignment st.db payload user false today).assignment.id now 60 := by
  unfold send_assignment_to_user
  rw [ho]
  rfl

/-- Helper: with a successful text send, `_send_assignment_to_user` is
the voice step followed by the success block, planning follow-ups when
the row was fresh or undelivered. -/
theorem send_assignment_eq_of_textOk (st : SchedulerState) (payload : VerbPayload)
    (user : User) (sched : Bool) (o : DeliveryOutcome) (now : Int) (today : Nat)
    (ho : o.textOk = true) :
    send_assignment_to_user st payload user sched o now today =
      deliver_success_tail
        (send_voice_message
          { db := (ensure_daily_assignment st.db payload user false today).db
            jobs := st.jobs
            events := st.events ++ [.sendText user.chat_id true] }
          user.chat_id (ensure_daily_assignment st.db payload user false today).message o)
        user (ensure_daily_assignment st.db payload user false today).assignment
        (sched && ((ensure_daily_assignment st.db payload user false today).created
          || (ensure_daily_assignment st.db payload user false today).assignment.delivered_at.isNone)) now := by
  unfold send_assignment_to_user
  rw [ho]
  rfl

/-- C2: a failed primary send leaves the store exactly as the assignment
service wrote it (`delivered_at` untouched) and registers exactly one
delivery-retry job for the assignment, a `DateTrigger` 60 seconds out
that replaces any earlier registration under that key; when the retry
job fires (leaving the table) and its send succeeds on a current,
undelivered assignment, every row of that id carries `delivered_at` and
no delivery-retry job remains registered for it. -/
theorem delivery_retry_lifecycle :
    (∀ (st : SchedulerState) (payload : VerbPayload) (user : User) (sched : Bool)
        (o : DeliveryOutcome) (now : Int) (today : Nat),
        o.textOk = false →
          (send_assignment_to_user st payload user sched o now today).db =
              (ensure_daily_assignment st.db payload user false today).db
          ∧ (send_assignment_to_user st payload user sched o now today).jobs.filter
                (fun j => decide (j.id = delivery_retry_job_id
                  (ensure_daily_assignment st.db payload user false today).assignment.id)) =
              [{ id := delivery_retry_job_id
                    (ensure_daily_assignment st.db payload user false today).assignment.id
                 trigger := .date (now + 60)
                 callback := .retryDelivery user.id
                    (ensure_daily_assignment st.db payload user false today).assignment.id }])
    ∧ (∀ (st : SchedulerState) (user_id : Nat) (u : User) (a : Assignment)
        (o : DeliveryOutcome) (now : Int) (today : Nat),
        o.textOk = true →
        st.db.get_user_by_id user_id = some u →
        st.db.get_assignment_by_id a.id = some a →
        a.delivered_at = none →
        ¬ a.date_assigned < today →
        a.status = "assigned" →
          (∀ b ∈ (retry_assignment_delivery
                { st with jobs := st.jobs.filter (fun j => decide (j.id ≠ delivery_retry_job_id a.id)) }
                user_id a.id o now today).db.assignments,
              b.id = a.id → b.delivered_at = some now)
          ∧ (retry_assignment_delivery
                { st with jobs := st.jobs.filter (fun j => decide (j.id ≠ delivery_retry_job_id a.id)) }
                user_id a.id o now today).jobs.filter
                  (fun j => decide (j.id = delivery_retry_job_id a.id)) = []) := by
  constructor
  · intro st payload user sched o now today ho
    rw [send_assignment_eq_of_textFail st payload user sched o now today ho]
    exact ⟨rfl, filter_addJob_self _ _ _ rfl⟩
  · intro st user_id u a o now today ho hu ha hdel hdate hstatus
    have hstep : retry_assignment_delivery
        { st with jobs := st.jobs.filter (fun j => decide (j.id ≠ delivery_retry_job_id a.id)) }
        user_id a.id o now today =
        deliver_existing_assignment
          { st with jobs := st.jobs.filter (fun j => decide (j.id ≠ delivery_retry_job_id a.id)) }
          u a true o now := by
      unfold retry_assignment_delivery
      dsimp only
      rw [hu, ha]
      dsimp only
      rw [if_neg (by simp [hdel] : ¬ (a.delivered_at.isSome = true)),
        if_neg (by simp [hdate, hstatus] :
          ¬ ((decide (a.date_assigned < today) || decide (a.status ≠ "assigned")) = true))]
    rw [hstep, deliver_existing_eq_of_textOk _ u a true o now ho]
    exact ⟨(deliver_success_tail_facts _ u a _ now).1,
      (deliver_success_tail_facts _ u a _ now).2.1⟩

/-- Witness for C2 at concrete inputs: `wUser`'s day-7 assignment, a
failed live send at `now = 100`, and a successful retry at `now = 200`. -/
theorem delivery_retry_lifecycle_witness :
    (oTextFail.textOk = false
      ∧ (send_assignment_to_user stWithUser wPayload wUser true oTextFail 100 7).db =
            (ensure_daily_assignment stWithUser.db wPayload wUser false 7).db
        ∧ (send_assignment_to_user stWithUser wPayload wUser true oTextFail 100 7).jobs.filter
              (fun j => decide (j.id = delivery_retry_job_id
                (ensure_daily_assignment stWithUser.db wPayload wUser false 7).assignment.id)) =
            [{ id := delivery_retry_job_id
                  (ensure_daily_assignment stWithUser.db wPayload wUser false 7).assignment.id
               trigger := .date (100 + 60)
               callback := .retryDelivery wUser.id
                  (ensure_daily_assignment stWithUser.db wPayload wUser false 7).assignment.id }])
    ∧ (oAllOk.textOk = true
      ∧ stWithUser.db.get_user_by_id 1 = some wUser
      ∧ stWithUser.db.get_assignment_by_id wRow.id = some wRow
      ∧ wRow.delivered_at = none
      ∧ ¬ wRow.date_assigned < 7
      ∧ wRow.status = "assigned"
      ∧ (∀ b ∈ (retry_assignment_delivery
            { stWithUser with jobs := stWithUser.jobs.filter (fun j => decide (j.id ≠ delivery_retry_job_id wRow.id)) }
            1 wRow.id oAllOk 200 7).db.assignments,
          b.id = wRow.id → b.delivered_at = some 200)
        ∧ (retry_assignment_delivery
            { stWithUser with jobs := stWithUser.jobs.filter (fun j => decide (j.id ≠ delivery_retry_job_id wRow.id)) }
            1 wRow.id oAllOk 200 7).jobs.filter
              (fun j => decide (j.id = delivery_retry_job_id wRow.id)) = []) :=
  ⟨⟨by decide, delivery_retry_lifecycle.1 stWithUser wPayload wUser true oTextFail 100 7 (by decide)⟩,
    by decide, by decide, by decide, by decide, by decide, by decide,
    delivery_retry_lifecycle.2 stWithUser 1 wUser wRow oAllOk 200 7
      (by decide) (by decide) (by decide) (by decide) (by decide) (by decide)⟩

/-- Helper: dropping a prefix from a list ending in a non-dropped
character never empties it. -/
theorem dropWhile_append_singleton_ne_nil (p : Char → Bool) (c : Char) (hc : p c = false) :
    ∀ l : List Char, (l ++ [c]).dropWhile p ≠ [] := by
  intro l
  induction l with
  | nil => simp [List.dropWhile, hc]
  | cons x xs ih =>
      simp only [List.cons_append, List.dropWhile_cons]
      by_cases hx : p x = true
      · simp [hx, ih]
      · simp [hx]

theorem intercalate_go_prefix (sep : String) :
    ∀ (as : List String) (acc : String), ∃ t, String.intercalate.go acc sep as = acc ++ t := by
  intro as
  induction as with
  | nil => intro acc; exact ⟨"", (String.append_empty acc).symm⟩
  | cons a rest ih =>
      intro acc
      obtain ⟨t, ht⟩ := ih (acc ++ sep ++ a)
      exact ⟨sep ++ a ++ t, by rw [String.intercalate.go, ht]; simp [String.append_assoc]⟩

theorem pyStrip_ne_empty_of_head (s : String) (c : Char) (rest : List Char)
    (hdata : s.data = c :: rest) (hc : c.isWhitespace = false) :
    ¬ pyStrip s = "" := by
  intro h
  unfold pyStrip at h
  rw [show s.toList = s.data from rfl, hdata] at h
  rw [List.dropWhile_cons, hc] at h
  simp only [Bool.false_eq_true, if_false] at h
  have h2 : ((c :: rest).reverse.dropWhile Char.isWhitespace).reverse ≠ [] := by
    intro hnil
    have := congrArg List.reverse hnil
    rw [List.reverse_reverse] at this
    have hne := dropWhile_append_singleton_ne_nil Char.isWhitespace c hc rest.reverse
    rw [List.reverse_cons] at this
    exact hne this
  have h3 := congrArg String.data h
  simp only [String.mk] at h3 ⊢
  exact h2 (by simpa using h3)

theorem intercalate_data_head (sep : String) (a : String) (as : List String) :
    ∃ t : List Char, (String.intercalate sep (a :: as)).data = a.data ++ t := by
  obtain ⟨u, hu⟩ := intercalate_go_prefix sep as a
  exact ⟨u.data, by
    rw [show String.intercalate sep (a :: as) = String.intercalate.go a sep as from rfl, hu,
      String.data_append]⟩

theorem format_plain_ne_empty (v t e j : String) :
    ¬ pyStrip (format_assignment_message v t e j).plain = "" := by
  have hplain : (format_assignment_message v t e j).plain =
      String.intercalate "\n\n" (("Фразовый глагол дня: " ++ v ++ " — " ++ t) ::
        [normalizeExplanation e,
          "Пример: Попробуй составить короткое предложение с этим глаголом.",
          "Перевод: Затем переведи его на русский язык самостоятельно.",
          "Напиши своё короткое предложение — я подскажу, всё ли верно."]) := rfl
  have hr1 : ("Фразовый глагол дня: " ++ v ++ " — " ++ t).data
      = 'Ф' :: ((("разовый глагол дня: ".data ++ v.data) ++ " — ".data) ++ t.data) := by
    rw [String.data_append, String.data_append, String.data_append,
      show ("Фразовый глагол дня: ".data) = 'Ф' :: "разовый глагол дня: ".data from rfl]
    simp only [List.cons_append]
  obtain ⟨u, hu⟩ := intercalate_data_head "\n\n"
    ("Фразовый глагол дня: " ++ v ++ " — " ++ t)
    [normalizeExplanation e,
      "Пример: Попробуй составить короткое предложение с этим глаголом.",
      "Перевод: Затем переведи его на русский язык самостоятельно.",
      "Напиши своё короткое предложение — я подскажу, всё ли верно."]
  have hdata : (format_assignment_message v t e j).plain.data
      = 'Ф' :: (((("разовый глагол дня: ".data ++ v.data) ++ " — ".data) ++ t.data) ++ u) := by
    rw [hplain, hu, hr1, List.cons_append]
  exact pyStrip_ne_empty_of_head _ 'Ф' _ hdata (by decide)

/-- C4 (amended): the recovery pass folds its loop body over the
snapshot of undelivered rows; a stale row (earlier date or status not
`assigned`) is marked delivered with no send attempt; a current row
whose user record cannot be loaded is likewise marked delivered with no
send attempt; a current row with a user goes down the live-send path,
which on failure leaves the store untouched and schedules the
delivery-retry job, and on success stamps the row delivered. -/
theorem recovery_pass_cases :
    (∀ (st : SchedulerState) (today : Nat) (o : Nat → DeliveryOutcome) (now : Int),
        deliver_pending_assignments st today o now =
          (st.db.list_undelivered_assignments).foldl (deliver_pending_step today o now) st)
    ∧ (∀ (st : SchedulerState) (a : Assignment) (today : Nat) (o : Nat → DeliveryOutcome) (now : Int),
        (decide (a.date_assigned < today) || decide (a.status ≠ "assigned")) = true →
          deliver_pending_step today o now st a =
            { st with db := st.db.mark_assignment_delivered a.id now })
    ∧ (∀ (st : SchedulerState) (a : Assignment) (today : Nat) (o : Nat → DeliveryOutcome) (now : Int),
        (decide (a.date_assigned < today) || decide (a.status ≠ "assigned")) = false →
          st.db.get_user_by_id a.user_id = none →
          deliver_pending_step today o now st a =
            { st with db := st.db.mark_assignment_delivered a.id now })
    ∧ (∀ (st : SchedulerState) (a : Assignment) (today : Nat) (o : Nat → DeliveryOutcome) (now : Int)
        (u : User),
        (decide (a.date_assigned < today) || decide (a.status ≠ "assigned")) = false →
          st.db.get_user_by_id a.user_id = some u →
          deliver_pending_step today o now st a =
            deliver_existing_assignment st u a true (o a.id) now)
    ∧ (∀ (st : SchedulerState) (u : User) (a : Assignment) (o : DeliveryOutcome) (now : Int),
        o.textOk = false →
          (deliver_existing_assignment st u a true o now).db = st.db
          ∧ (deliver_existing_assignment st u a true o now).jobs.filter
                (fun j => decide (j.id = delivery_retry_job_id a.id)) =
              [{ id := delivery_retry_job_id a.id
                 trigger := .date (now + 60)
                 callback := .retryDelivery u.id a.id }])
    ∧ (∀ (st : SchedulerState) (u : User) (a : Assignment) (o : DeliveryOutcome) (now : Int),
        o.textOk = true →
          ∀ b ∈ (deliver_existing_assignment st u a true o now).db.assignments,
            b.id = a.id → b.delivered_at = some now) := by
  refine ⟨fun _ _ _ _ => rfl, ?_, ?_, ?_, ?_, ?_⟩
  · intro st a today o now h
    unfold deliver_pending_step
    rw [if_pos h]
  · intro st a today o now h hu
    unfold deliver_pending_step
    rw [if_neg (ne_true_of_eq_false h), hu]
  · intro st a today o now u h hu
    unfold deliver_pending_step
    rw [if_neg (ne_true_of_eq_false h), hu]
  · intro st u a o now ho
    rw [deliver_existing_eq_of_textFail st u a true o now ho]
    exact ⟨rfl, filter_addJob_self _ _ _ rfl⟩
  · intro st u a o now ho
    rw [deliver_existing_eq_of_textOk st u a true o now ho]
    exact (deliver_success_tail_facts _ u a _ now).1

/-- Witness for C4's amended theorem at concrete inputs: a stale row, an
orphaned current row, and a current row with its user present, with one
failing and one succeeding send. -/
theorem recovery_pass_cases_witness :
    ((decide (wRowMastered.date_assigned < 7) || decide (wRowMastered.status ≠ "assigned")) = true
      ∧ deliver_pending_step 7 oracleAllOk 0 stWithUser wRowMastered =
          { stWithUser with db := stWithUser.db.mark_assignment_delivered wRowMastered.id 0 })
    ∧ ((decide (wRow.date_assigned < 7) || decide (wRow.status ≠ "assigned")) = false
      ∧ stOrphan.db.get_user_by_id wRow.user_id = none
      ∧ deliver_pending_step 7 oracleAllOk 0 stOrphan wRow =
          { stOrphan with db := stOrphan.db.mark_assignment_delivered wRow.id 0 })
    ∧ ((decide (wRow.date_assigned < 7) || decide (wRow.status ≠ "assigned")) = false
      ∧ stWithUser.db.get_user_by_id wRow.user_id = some wUser
      ∧ deliver_pending_step 7 oracleAllOk 0 stWithUser wRow =
          deliver_existing_assignment stWithUser wUser wRow true (oracleAllOk wRow.id) 0)
    ∧ (oTextFail.textOk = false
      ∧ (deliver_existing_assignment stWithUser wUser wRow true oTextFail 0).db = stWithUser.db
        ∧ (deliver_existing_assignment stWithUser wUser wRow true oTextFail 0).jobs.filter
              (fun j => decide (j.id = delivery_retry_job_id wRow.id)) =
            [{ id := delivery_retry_job_id wRow.id
               trigger := .date (0 + 60)
               callback := .retryDelivery wUser.id wRow.id }])
    ∧ (oAllOk.textOk = true
      ∧ ∀ b ∈ (deliver_existing_assignment stWithUser wUser wRow true oAllOk 0).db.assignments,
          b.id = wRow.id → b.delivered_at = some 0) :=
  ⟨⟨by decide, recovery_pass_cases.2.1 stWithUser wRowMastered 7 oracleAllOk 0 (by decide)⟩,
    ⟨by decide, by decide, recovery_pass_cases.2.2.1 stOrphan wRow 7 oracleAllOk 0 (by decide) (by decide)⟩,
    ⟨by decide, by decide, recovery_pass_cases.2.2.2.1 stWithUser wRow 7 oracleAllOk 0 wUser (by decide) (by decide)⟩,
    ⟨by decide, recovery_pass_cases.2.2.2.2.1 stWithUser wUser wRow oTextFail 0 (by decide)⟩,
    ⟨by decide, recovery_pass_cases.2.2.2.2.2 stWithUser wUser wRow oAllOk 0 (by decide)⟩⟩

/-- Counterexample to C4 as stated: the current, undelivered, orphaned
`wRow` is in the recovery snapshot and is not stale, yet the recovery
pass performs no send attempt and registers no retry job for it — it
marks it delivered outright, against the claim's `otherwise it attempts
delivery on the live-send path`. -/
theorem recovery_orphan_counterexample :
    wRow.delivered_at = none
    ∧ stOrphan.db.list_undelivered_assignments = [wRow]
    ∧ ¬ (wRow.date_assigned < 7 ∨ wRow.status ≠ "assigned")
    ∧ (deliver_pending_assignments stOrphan 7 oracleAllOk 0).events = []
    ∧ (deliver_pending_assignments stOrphan 7 oracleAllOk 0).jobs = []
    ∧ (deliver_pending_assignments stOrphan 7 oracleAllOk 0).db.assignments.map
        (fun b => b.delivered_at) = [some 0] := by
  refine ⟨by decide, by decide, by decide, by decide, by decide, by decide⟩

/-- Helper: membership after `replaceFirst` comes from the original
list, possibly through the update function. -/
theorem mem_replaceFirst (p : Assignment → Bool) (g : Assignment → Assignment) :
    ∀ (l : List Assignment) (b : Assignment),
      b ∈ Database.replaceFirst p g l → b ∈ l ∨ ∃ x ∈ l, b = g x := by
  intro l
  induction l with
  | nil => intro b hb; cases hb
  | cons a rest ih =>
      intro b hb
      unfold Database.replaceFirst at hb
      by_cases hp : p a = true
      · rw [if_pos hp] at hb
        rcases List.mem_cons.mp hb with rfl | hbrest
        · exact Or.inr ⟨a, List.mem_cons_self a rest, rfl⟩
        · exact Or.inl (List.mem_cons_of_mem a hbrest)
      · rw [if_neg hp] at hb
        rcases List.mem_cons.mp hb with rfl | hbrest
        · exact Or.inl (List.mem_cons_self b rest)
        · rcases ih b hbrest with h | ⟨x, hx, rfl⟩
          · exact Or.inl (List.mem_cons_of_mem a h)
          · exact Or.inr ⟨x, List.mem_cons_of_mem a hx, rfl⟩

/-- Helper: the assignment service never stamps `delivered_at`: a
delivered row after `ensure_daily_assignment` was already delivered
before the call. -/
theorem ensure_daily_preserves_delivered (db : Database) (payload : VerbPayload)
    (user : User) (f : Bool) (today : Nat) :
    ∀ b ∈ (ensure_daily_assignment db payload user f today).db.assignments,
      b.delivered_at ≠ none →
      ∃ b0 ∈ db.assignments, b0.id = b.id ∧ b0.delivered_at ≠ none := by
  intro b hb hbd
  unfold ensure_daily_assignment at hb
  cases hfind : db.get_today_assignment user.id today with
  | some e =>
      rw [hfind] at hb
      dsimp only at hb
      by_cases hf : f = true
      · rw [if_pos hf] at hb
        unfold Database.ensure_today_assignment at hb
        rw [hfind] at hb
        dsimp only at hb
        rw [if_pos hf] at hb
        rcases mem_replaceFirst _ _ _ b hb with hmem | ⟨x, _, rfl⟩
        · exact ⟨b, hmem, rfl, hbd⟩
        · exact absurd rfl hbd
      · rw [if_neg hf] at hb
        exact ⟨b, hb, rfl, hbd⟩
  | none =>
      rw [hfind] at hb
      dsimp only at hb
      unfold Database.ensure_today_assignment at hb
      rw [hfind] at hb
      dsimp only at hb
      rcases List.mem_append.mp hb with hmem | hnew
      · exact ⟨b, hmem, rfl, hbd⟩
      · simp only [List.mem_singleton] at hnew
        subst hnew
        exact absurd rfl hbd

/-- Helper: a delivered row after `mark_assignment_delivered` either has
the marked id or was delivered before. -/
theorem mark_delivered_source (db : Database) (aid : Nat) (now : Int) :
    ∀ b ∈ (db.mark_assignment_delivered aid now).assignments,
      b.delivered_at ≠ none →
      b.id = aid ∨ ∃ b0 ∈ db.assignments, b0.id = b.id ∧ b0.delivered_at ≠ none := by
  intro b hb hbd
  unfold Database.mark_assignment_delivered Database.updateById at hb
  simp only [List.mem_map] at hb
  obtain ⟨x, hx, hxb⟩ := hb
  subst hxb
  by_cases hmatch : (x.id == aid) = true
  · rw [if_pos hmatch]
    exact Or.inl (by simpa using hmatch)
  · rw [if_neg hmatch] at hbd ⊢
    exact Or.inr ⟨x, hx, rfl, hbd⟩

/-- Helper: `_deliver_existing_assignment` leaves a row delivered only
when it was delivered before or the text send succeeded. -/
theorem deliver_existing_delivered_source (st : SchedulerState) (u : User) (a : Assignment)
    (sched : Bool) (o : DeliveryOutcome) (now : Int) :
    ∀ b ∈ (deliver_existing_assignment st u a sched o now).db.assignments,
      b.delivered_at ≠ none →
      (∃ b0 ∈ st.db.assignments, b0.id = b.id ∧ b0.delivered_at ≠ none) ∨ o.textOk = true := by
  intro b hb hbd
  cases ho : o.textOk with
  | true => exact Or.inr rfl
  | false =>
      rw [deliver_existing_eq_of_textFail st u a sched o now ho] at hb
      exact Or.inl ⟨b, hb, rfl, hbd⟩

/-- C5 (amended): across the recovery loop body, the delivery-retry job
and the live send, a row can only end up delivered when it was already
delivered before the call, when the processed assignment was stale
(date before today or status not `assigned`), when its user record is
missing (the orphan retirement the code adds to the spec's error
taxonomy), or when the transport reported a successful text send. -/
theorem delivered_only_with_cause :
    (∀ (st : SchedulerState) (a : Assignment) (today : Nat) (o : Nat → DeliveryOutcome)
        (now : Int) (b : Assignment),
        b ∈ (deliver_pending_step today o now st a).db.assignments →
        b.delivered_at ≠ none →
          (∃ b0 ∈ st.db.assignments, b0.id = b.id ∧ b0.delivered_at ≠ none)
          ∨ (a.date_assigned < today ∨ a.status ≠ "assigned")
          ∨ st.db.get_user_by_id a.user_id = none
          ∨ (o a.id).textOk = true)
    ∧ (∀ (st : SchedulerState) (user_id assignment_id : Nat) (o : DeliveryOutcome)
        (now : Int) (today : Nat) (b : Assignment),
        b ∈ (retry_assignment_delivery st user_id assignment_id o now today).db.assignments →
        b.delivered_at ≠ none →
          (∃ b0 ∈ st.db.assignments, b0.id = b.id ∧ b0.delivered_at ≠ none)
          ∨ st.db.get_user_by_id user_id = none
          ∨ (∃ a2, st.db.get_assignment_by_id assignment_id = some a2
              ∧ (a2.date_assigned < today ∨ a2.status ≠ "assigned"))
          ∨ o.textOk = true)
    ∧ (∀ (st : SchedulerState) (payload : VerbPayload) (user : User) (sched : Bool)
        (o : DeliveryOutcome) (now : Int) (today : Nat) (b : Assignment),
        b ∈ (send_assignment_to_user st payload user sched o now today).db.assignments →
        b.delivered_at ≠ none →
          (∃ b0 ∈ st.db.assignments, b0.id = b.id ∧ b0.delivered_at ≠ none)
          ∨ o.textOk = true) := by
  refine ⟨?_, ?_, ?_⟩
  · intro st a today o now b hb hbd
    unfold deliver_pending_step at hb
    by_cases hstale : (decide (a.date_assigned < today) || decide (a.status ≠ "assigned")) = true
    · exact Or.inr (Or.inl (by simpa using hstale))
    · rw [if_neg hstale] at hb
      cases hu : st.db.get_user_by_id a.user_id with
      | none => exact Or.inr (Or.inr (Or.inl rfl))
      | some u =>
          rw [hu] at hb
          dsimp only at hb
          rcases deliver_existing_delivered_source st u a true (o a.id) now b hb hbd with h | h
          · exact Or.inl h
          · exact Or.inr (Or.inr (Or.inr h))
  · intro st user_id assignment_id o now today b hb hbd
    unfold retry_assignment_delivery at hb
    cases hu : st.db.get_user_by_id user_id with
    | none => exact Or.inr (Or.inl rfl)
    | some u =>
        rw [hu] at hb
        dsimp only at hb
        cases ha : st.db.get_assignment_by_id assignment_id with
        | none =>
            rw [ha] at hb
            exact Or.inl ⟨b, hb, rfl, hbd⟩
        | some a2 =>
            rw [ha] at hb
            dsimp only at hb
            by_cases hds : a2.delivered_at.isSome = true
            · rw [if_pos hds] at hb
              exact Or.inl ⟨b, hb, rfl, hbd⟩
            · rw [if_neg hds] at hb
              by_cases hstale :
                  (decide (a2.date_assigned < today) || decide (a2.status ≠ "assigned")) = true
              · exact Or.inr (Or.inr (Or.inl ⟨a2, rfl, by simpa using hstale⟩))
              · rw [if_neg hstale] at hb
                rcases deliver_existing_delivered_source st u a2 true o now b hb hbd with h | h
                · exact Or.inl h
                · exact Or.inr (Or.inr (Or.inr h))
  · intro st payload user sched o now today b hb hbd
    cases ho : o.textOk with
    | true => exact Or.inr rfl
    | false =>
        rw [send_assignment_eq_of_textFail st payload user sched o now today ho] at hb
        exact Or.inl (ensure_daily_preserves_delivered st.db payload user false today b hb hbd)

/-- Witness for C5's amended theorem at concrete inputs: the orphaned
current `wRow`, delivered by the retry path's missing-user branch. -/
theorem delivered_only_with_cause_witness :
    ({ wRow with delivered_at := some 3 } ∈
        (retry_assignment_delivery stOrphan 1 1 oAllOk 3 7).db.assignments)
    ∧ ({ wRow with delivered_at := some 3 } : Assignment).delivered_at ≠ none
    ∧ ((∃ b0 ∈ stOrphan.db.assignments,
          b0.id = ({ wRow with delivered_at := some 3 } : Assignment).id ∧ b0.delivered_at ≠ none)
        ∨ stOrphan.db.get_user_by_id 1 = none
        ∨ (∃ a2, stOrphan.db.get_assignment_by_id 1 = some a2
            ∧ (a2.date_assigned < 7 ∨ a2.status ≠ "assigned"))
        ∨ oAllOk.textOk = true) :=
  ⟨by decide, by decide,
    delivered_only_with_cause.2.1 stOrphan 1 1 oAllOk 3 7
      { wRow with delivered_at := some 3 } (by decide) (by decide)⟩

/-- Counterexample to C5 as stated: the retry job finds `wRow` current
(dated today, status `assigned`, undelivered) but its user record
missing, and marks it delivered although no send of its text ever
happened — an error path setting `delivered_at` on a current assignment
without a successful send. -/
theorem retry_marks_current_orphan_counterexample :
    wRow.date_assigned = 7 ∧ wRow.status = "assigned" ∧ wRow.delivered_at = none
    ∧ stOrphan.db.get_user_by_id wRow.user_id = none
    ∧ (retry_assignment_delivery stOrphan 1 1 oAllOk 3 7).events = []
    ∧ (retry_assignment_delivery stOrphan 1 1 oAllOk 3 7).db.assignments.map
        (fun b => b.delivered_at) = [some 3] := by
  refine ⟨by decide, by decide, by decide, by decide, by decide, by decide⟩

/-- Helper: the message the assignment service returns is always the
formatted message of the returned assignment's fields. -/
theorem ensure_daily_message_eq (db : Database) (payload : VerbPayload) (user : User)
    (f : Bool) (today : Nat) :
    (ensure_daily_assignment db payload user f today).message =
      format_assignment_message
        (ensure_daily_assignment db payload user f today).assignment.phrasal_verb
        (ensure_daily_assignment db payload user f today).assignment.translation
        (ensure_daily_assignment db payload user f today).assignment.explanation
        (ensure_daily_assignment db payload user f today).assignment.examples_json := by
  unfold ensure_daily_assignment
  cases hfind : db.get_today_assignment user.id today with
  | some e =>
      dsimp only
      by_cases hf : f = true
      · rw [if_pos hf]
      · rw [if_neg hf]
  | none => rfl

/-- C6 (amended): neither scheduled-send path consults the user's
`send_audio` preference — the result is identical for any preference
value; after every successful text send the audio rendition is
synthesized (the plain text of a formatted assignment message is never
empty) and, when synthesis yields bytes, sent; a failed audio send is
logged, `delivered_at` is stamped regardless of the audio outcome, and
no retry job is registered for the assignment. -/
theorem audio_rendition_unconditional :
    (∀ (st : SchedulerState) (u : User) (a : Assignment) (sched : Bool)
        (o : DeliveryOutcome) (now : Int) (bb : Bool),
        deliver_existing_assignment st { u with send_audio := bb } a sched o now =
          deliver_existing_assignment st u a sched o now)
    ∧ (∀ (st : SchedulerState) (payload : VerbPayload) (u : User) (sched : Bool)
        (o : DeliveryOutcome) (now : Int) (today : Nat) (bb : Bool),
        send_assignment_to_user st payload { u with send_audio := bb } sched o now today =
          send_assignment_to_user st payload u sched o now today)
    ∧ (∀ (st : SchedulerState) (u : User) (a : Assignment) (sched : Bool)
        (o : DeliveryOutcome) (now : Int),
        o.textOk = true →
          Event.synthAudio u.chat_id o.synthOk ∈
            (deliver_existing_assignment st u a sched o now).events)
    ∧ (∀ (st : SchedulerState) (payload : VerbPayload) (u : User) (sched : Bool)
        (o : DeliveryOutcome) (now : Int) (today : Nat),
        o.textOk = true →
          Event.synthAudio u.chat_id o.synthOk ∈
            (send_assignment_to_user st payload u sched o now today).events)
    ∧ (∀ (st : SchedulerState) (u : User) (a : Assignment) (sched : Bool)
        (o : DeliveryOutcome) (now : Int),
        o.textOk = true →
          (∀ b ∈ (deliver_existing_assignment st u a sched o now).db.assignments,
            b.id = a.id → b.delivered_at = some now)
          ∧ (deliver_existing_assignment st u a sched o now).jobs.filter
              (fun j => decide (j.id = delivery_retry_job_id a.id)) = [])
    ∧ (∀ (st : SchedulerState) (u : User) (a : Assignment) (sched : Bool)
        (o : DeliveryOutcome) (now : Int),
        o.textOk = true → o.synthOk = true → o.audioBytes = true → o.audioOk = false →
          Event.logError "Failed to send voice message" ∈
            (deliver_existing_assignment st u a sched o now).events) := by
  refine ⟨?_, ?_, ?_, ?_, ?_, ?_⟩
  · intro st u a sched o now bb
    cases u
    rfl
  · intro st payload u sched o now today bb
    cases u
    rfl
  · intro st u a sched o now ho
    rw [deliver_existing_eq_of_textOk st u a sched o now ho,
      (deliver_success_tail_facts _ u a _ now).2.2]
    exact send_voice_message_synth_mem _ _ _ _
      (format_plain_ne_empty a.phrasal_verb a.translation a.explanation a.examples_json)
  · intro st payload u sched o now today ho
    rw [send_assignment_eq_of_textOk st payload u sched o now today ho,
      (deliver_success_tail_facts _ u _ _ now).2.2, ensure_daily_message_eq]
    exact send_voice_message_synth_mem _ _ _ _ (format_plain_ne_empty _ _ _ _)
  · intro st u a sched o now ho
    rw [deliver_existing_eq_of_textOk st u a sched o now ho]
    exact ⟨(deliver_success_tail_facts _ u a _ now).1,
      (deliver_success_tail_facts _ u a _ now).2.1⟩
  · intro st u a sched o now ho hs hb ha
    rw [deliver_existing_eq_of_textOk st u a sched o now ho,
      (deliver_success_tail_facts _ u a _ now).2.2]
    exact send_voice_message_audio_failure_logged _ _ _ _
      (format_plain_ne_empty a.phrasal_verb a.translation a.explanation a.examples_json) hs hb ha

/-- Witness for C6's amended theorem at concrete inputs: the voice path
runs for `wUserNoAudio` (preference off) exactly as it would with the
preference on, and a failed audio send is logged while the row is still
stamped delivered. -/
theorem audio_rendition_unconditional_witness :
    (oAllOk.textOk = true
      ∧ Event.synthAudio 5 oAllOk.synthOk ∈
          (deliver_existing_assignment stNoAudio wUserNoAudio wRow true oAllOk 10).events)
    ∧ (oAllOk.textOk = true
      ∧ Event.synthAudio 5 oAllOk.synthOk ∈
          (send_assignment_to_user stNoAudio wPayload wUserNoAudio true oAllOk 10 7).events)
    ∧ (oAudioFail.textOk = true
      ∧ (∀ b ∈ (deliver_existing_assignment stNoAudio wUserNoAudio wRow true oAudioFail 10).db.assignments,
          b.id = wRow.id → b.delivered_at = some 10)
        ∧ (deliver_existing_assignment stNoAudio wUserNoAudio wRow true oAudioFail 10).jobs.filter
            (fun j => decide (j.id = delivery_retry_job_id wRow.id)) = [])
    ∧ (oAudioFail.textOk = true ∧ oAudioFail.synthOk = true ∧ oAudioFail.audioBytes = true
      ∧ oAudioFail.audioOk = false
      ∧ Event.logError "Failed to send voice message" ∈
          (deliver_existing_assignment stNoAudio wUserNoAudio wRow true oAudioFail 10).events) :=
  ⟨⟨by decide, audio_rendition_unconditional.2.2.1 stNoAudio wUserNoAudio wRow true oAllOk 10 (by decide)⟩,
    ⟨by decide, audio_rendition_unconditional.2.2.2.1 stNoAudio wPayload wUserNoAudio true oAllOk 10 7 (by decide)⟩,
    ⟨by decide, audio_rendition_unconditional.2.2.2.2.1 stNoAudio wUserNoAudio wRow true oAudioFail 10 (by decide)⟩,
    by decide, by decide, by decide, by decide,
    audio_rendition_unconditional.2.2.2.2.2 stNoAudio wUserNoAudio wRow true oAudioFail 10
      (by decide) (by decide) (by decide) (by decide)⟩

/-- Counterexample to C6 as stated: `wUserNoAudio` has the audio
preference switched off, yet after a successful scheduled text send the
scheduler still synthesizes and sends the audio rendition — the user
receives an audio send attempt. -/
theorem audio_preference_ignored_counterexample :
    wUserNoAudio.send_audio = false
    ∧ Event.synthAudio 5 true ∈
        (send_assignment_to_user stNoAudio wPayload wUserNoAudio true oAllOk 43200 7).events
    ∧ Event.sendAudio 5 true ∈
        (send_assignment_to_user stNoAudio wPayload wUserNoAudio true oAllOk 43200 7).events := by
  refine ⟨by decide, by decide, by decide⟩

end LearnEnBot
